import Mathlib

/-!
Verification development for the `jarvis-your-study-tutor` repository.

The backend is a Motoko actor (`src/unnamed/part_000`) holding per-caller
("tenant") collections in `mo:core` ordered maps, and the spaced-repetition
review scheduler lives in the frontend (`rateCard` in
`src/src/frontend/src/components/QuizView.tsx`).

Embedding choices:
* Motoko `Principal` is modelled as `Nat`.
* Motoko `Text` is `String`, `Int` (unbounded) is `ℤ`, `Float` is `ℚ`
  (the scheduler's arithmetic is modelled with exact rationals).
* `mo:core` `Map` is an ordered map (`values()` iterates in ascending key
  order); it is modelled as a key-sorted association list `Tbl` whose `add`
  is sorted insert-or-replace.
* `Time.now()` is passed explicitly as a `now : ℤ` argument (nanoseconds);
  within one Motoko message all `Time.now()` calls yield the same value.
* `Runtime.trap` aborts the message and rolls back state; every trap in the
  source occurs before any mutation, so an operation returns the unchanged
  state together with a `Res.trap msg` result.
-/

namespace Jarvis

/-- Caller identity (Motoko `Principal`). -/
abbrev Principal := Nat

/-- Ordered key-value table modelling a `mo:core` `Map`: a key-sorted
association list; `values` iterates in ascending key order. -/
abbrev Tbl (K V : Type) := List (K × V)

namespace Tbl

/-- `Map.empty()`. -/
def empty {K V : Type} : Tbl K V := []

/-- `Map.get`. -/
def get {K V : Type} [DecidableEq K] : Tbl K V → K → Option V
  | [], _ => none
  | (k', v') :: rest, k => if k = k' then some v' else get rest k

/-- `Map.add` (insert-or-replace, keeping keys sorted ascending as in the
ordered `mo:core` map, whose operations carry the key comparison — here a
boolean strict-less `ltb`). -/
def add {K V : Type} [DecidableEq K] (ltb : K → K → Bool) :
    Tbl K V → K → V → Tbl K V
  | [], k, v => [(k, v)]
  | (k', v') :: rest, k, v =>
    if ltb k k' then (k, v) :: (k', v') :: rest
    else if k = k' then (k, v) :: rest
    else (k', v') :: add ltb rest k v

/-- `Map.remove` (delete the entry with the given key, if present). -/
def remove {K V : Type} [DecidableEq K] : Tbl K V → K → Tbl K V
  | [], _ => []
  | (k', v') :: rest, k =>
    if k' = k then remove rest k else (k', v') :: remove rest k

/-- `Map.values().toArray()`: values in ascending key order. -/
def values {K V : Type} (m : Tbl K V) : List V := m.map Prod.snd

/-- `Map.containsKey`. -/
def containsKey {K V : Type} [DecidableEq K] (m : Tbl K V) (k : K) : Bool :=
  (get m k).isSome

/-- Strict-order laws for a boolean key comparison. -/
structure LtbLaws {K : Type} (ltb : K → K → Bool) : Prop where
  asymm : ∀ a b, ltb a b = true → ltb b a = false
  ltrans : ∀ a b c, ltb a b = true → ltb b c = true → ltb a c = true
  total : ∀ a b, ltb a b = false → ¬ a = b → ltb b a = true

/-- Keys are strictly ascending (the representation invariant of the
ordered map). -/
abbrev SortedKeys {K V : Type} (ltb : K → K → Bool) (m : Tbl K V) : Prop :=
  List.Pairwise (fun a b => ltb a.1 b.1 = true) m

end Tbl

/-! ### The two key comparisons used by the store's maps -/

/-- The strict order on `Principal` keys (`Principal.compare`). -/
def natLtb (a b : Principal) : Bool := decide (a < b)

/-- Lexicographic strict order on character lists (`Text.compare`,
comparing code points). -/
def charListLtb : List Char → List Char → Bool
  | [], [] => false
  | [], _ :: _ => true
  | _ :: _, [] => false
  | c :: cs, d :: ds =>
    if c < d then true else if d < c then false else charListLtb cs ds

/-- The strict order on `Text` keys (Motoko `Text.compare`). -/
def strLtb (a b : String) : Bool := charListLtb a.data b.data

/-! ### Domain entities (from the actor's type declarations) -/

/-- `Message` record. -/
structure Message where
  role : String
  content : String
  timestamp : Int
deriving DecidableEq

/-- `ChatSession` record (`var messages` modelled as an immutable list that
operations replace). -/
structure ChatSession where
  id : String
  title : String
  createdAt : Int
  messages : List Message
deriving DecidableEq

/-- `ChatSessionDTO` record. -/
structure ChatSessionDTO where
  id : String
  title : String
  createdAt : Int
  messages : List Message
deriving DecidableEq

namespace ChatSessionDTO

/-- `ChatSessionDTO.fromChatSession`. -/
def fromChatSession (chatSession : ChatSession) : ChatSessionDTO :=
  { id := chatSession.id
    title := chatSession.title
    createdAt := chatSession.createdAt
    messages := chatSession.messages }

/-- `ChatSessionDTO.compareByCreatedAtDesc` (defined in the source but never
applied by any operation). -/
def compareByCreatedAtDesc (a b : ChatSessionDTO) : Ordering :=
  compare b.createdAt a.createdAt

end ChatSessionDTO

/-- `Note` record. -/
structure Note where
  id : String
  title : String
  content : String
  topic : String
  createdAt : Int
  updatedAt : Int
deriving DecidableEq

/-- `Flashcard` record (`easeFactor : Float` modelled as `ℚ`). -/
structure Flashcard where
  id : String
  front : String
  back : String
  difficulty : Int
  nextReview : Int
  interval : Int
  easeFactor : Rat
deriving DecidableEq

/-- `FlashcardDeck` record. -/
structure FlashcardDeck where
  id : String
  name : String
  subject : String
  cards : List Flashcard
deriving DecidableEq

/-- `FlashcardDeckDTO` record. -/
structure FlashcardDeckDTO where
  id : String
  name : String
  subject : String
  cards : List Flashcard
deriving DecidableEq

namespace FlashcardDeckDTO

/-- `FlashcardDeckDTO.fromFlashcardDeck`. -/
def fromFlashcardDeck (deck : FlashcardDeck) : FlashcardDeckDTO :=
  { id := deck.id, name := deck.name, subject := deck.subject
    cards := deck.cards }

end FlashcardDeckDTO

/-- `QuizResult` record. -/
structure QuizResult where
  id : String
  subject : String
  score : Int
  totalQuestions : Int
  timestamp : Int
deriving DecidableEq

namespace QuizResult

/-- `QuizResult.compareByTimestampDesc`. -/
def compareByTimestampDesc (a b : QuizResult) : Ordering :=
  compare b.timestamp a.timestamp

end QuizResult

/-- `Goal` record. -/
structure Goal where
  id : String
  title : String
  description : String
  targetDate : Int
  isCompleted : Bool
  createdAt : Int
deriving DecidableEq

/-- `ProgressStat` record (`masteryPercent : Float` as `ℚ`). -/
structure ProgressStat where
  subject : String
  masteryPercent : Rat
  lastUpdated : Int
deriving DecidableEq

/-- `PersonalityMode` variant. -/
inductive PersonalityMode where
  | strict_teacher
  | friendly
  | pro_coder
deriving DecidableEq

/-- `Profile` record. -/
structure Profile where
  displayName : String
  personalityMode : PersonalityMode
  preferredLanguage : String
  createdAt : Int
deriving DecidableEq

/-- `StudyStreak` record. -/
structure StudyStreak where
  currentStreak : Int
  lastStudyDate : Int
deriving DecidableEq

/-! ### The review scheduler (frontend `rateCard`, QuizView.tsx lines 464-488)

JavaScript numbers are modelled exactly: the card's `interval` as `ℤ` and
`easeFactor` as `ℚ`; `Math.floor` is `Int.floor`, `Math.max` is `max`. -/

/-- `DifficultyRating` from the frontend. -/
inductive DifficultyRating where
  | again
  | hard
  | good
  | easy
deriving DecidableEq

/-- The scheduler core of `rateCard`: from a rating and the card's current
`(interval, easeFactor)` compute `(newInterval, newEase)`. -/
def rateCard (rating : DifficultyRating) (interval : Int) (easeFactor : Rat) :
    Int × Rat :=
  match rating with
  | .again => (1, max (mkRat 13 10) (easeFactor - mkRat 2 10))
  | .hard => (max 1 ⌊(interval : Rat) * mkRat 12 10⌋,
      max (mkRat 13 10) (easeFactor - mkRat 15 100))
  | .good => (⌊(interval : Rat) * easeFactor⌋, easeFactor)
  | .easy => (⌊(interval : Rat) * easeFactor * mkRat 13 10⌋,
      easeFactor + mkRat 15 100)

/-! ### Decimal text of integers (Motoko `Int.toText`, used for entity IDs) -/

/-- A decimal digit as a character (digits ≥ 10 never occur). -/
def digitChar (d : Nat) : Char :=
  match d with
  | 0 => '0'
  | 1 => '1'
  | 2 => '2'
  | 3 => '3'
  | 4 => '4'
  | 5 => '5'
  | 6 => '6'
  | 7 => '7'
  | 8 => '8'
  | _ => '9'

/-- Little-endian decimal digits, with explicit fuel so that the definition is
structurally recursive (the fuel `n` always suffices). -/
def digitsAux : Nat → Nat → List Nat
  | _, 0 => []
  | 0, _ => []
  | fuel + 1, n + 1 => ((n + 1) % 10) :: digitsAux fuel ((n + 1) / 10)

/-- Little-endian decimal digits of a natural number (`[]` for `0`). -/
def natDigits (n : Nat) : List Nat := digitsAux n n

/-- Value of a little-endian digit list. -/
def ofDigits : List Nat → Nat
  | [] => 0
  | d :: ds => d + 10 * ofDigits ds

/-- Motoko `Nat.toText`: decimal representation. -/
def natToText (n : Nat) : String :=
  if n = 0 then String.mk ['0']
  else String.mk ((natDigits n).reverse.map digitChar)

/-- Motoko `Int.toText`: decimal representation, with a leading minus sign
for negative values. -/
def intToText (i : Int) : String :=
  if i < 0 then String.mk ('-' :: (natToText i.natAbs).data)
  else natToText i.natAbs

/-! ### The store state (the actor's eight top-level maps) -/

/-- The actor's mutable state: eight maps keyed by the caller's principal. -/
structure State where
  profiles : Tbl Principal Profile
  chatSessions : Tbl Principal (Tbl String ChatSession)
  notes : Tbl Principal (Tbl String Note)
  flashcardDecks : Tbl Principal (Tbl String FlashcardDeck)
  quizResults : Tbl Principal (Tbl String QuizResult)
  goals : Tbl Principal (Tbl String Goal)
  progressStats : Tbl Principal (Tbl String ProgressStat)
  studyStreaks : Tbl Principal StudyStreak
deriving DecidableEq

/-- The initial state: all maps empty. -/
def initState : State :=
  { profiles := Tbl.empty
    chatSessions := Tbl.empty
    notes := Tbl.empty
    flashcardDecks := Tbl.empty
    quizResults := Tbl.empty
    goals := Tbl.empty
    progressStats := Tbl.empty
    studyStreaks := Tbl.empty }

/-- Result of one externally visible operation; `trap msg` models
`Runtime.trap` (which aborts the message before any mutation in this actor,
so the state is returned unchanged alongside it). -/
inductive Res where
  | ok : Res
  | createdId : String → Res
  | profileRes : Profile → Res
  | sessionsRes : List ChatSessionDTO → Res
  | messagesRes : List Message → Res
  | notesRes : List Note → Res
  | noteRes : Note → Res
  | decksRes : List FlashcardDeckDTO → Res
  | cardsRes : List Flashcard → Res
  | quizzesRes : List QuizResult → Res
  | streakRes : StudyStreak → Res
  | goalsRes : List Goal → Res
  | statsRes : List ProgressStat → Res
  | trap : String → Res
deriving DecidableEq

/-! Trap messages (verbatim from the source). -/

def msgProfileExists : String := "Profile already exists, use update function instead"

def msgProfileUpdateMissing : String := "Profile does not exist, use create function instead"

def msgProfileMissing : String := "Profile does not exist"

def msgSessionNotFound : String := "Chat session not found"

def msgNoSessions : String := "No chat sessions found for user"

def msgNoteNotFound : String := "Note not found"

def msgNoNotes : String := "No notes found for user"

def msgDeckNotFound : String := "Deck not found"

def msgNoDecks : String := "No flashcard decks found for user"

def msgGoalNotFound : String := "Goal not found"

def msgNoGoals : String := "No goals found for user"

/-- Nanoseconds per day, the constant `24 * 60 * 60 * 1000000000`. -/
def nsPerDay : Int := 24 * 60 * 60 * 1000000000

/-! ### Operations (one definition per public actor function; `now` is the
value of `Time.now()` during the message) -/

/-- `createProfile`. -/
def createProfile (s : State) (caller : Principal) (now : Int)
    (displayName : String) (mode : PersonalityMode) (language : String) :
    State × Res :=
  if Tbl.containsKey s.profiles caller then
    (s, Res.trap msgProfileExists)
  else
    let profile : Profile :=
      { displayName := displayName
        personalityMode := mode
        preferredLanguage := language
        createdAt := now }
    ({ s with profiles := Tbl.add natLtb s.profiles caller profile }, Res.ok)

/-- `updateProfile`. -/
def updateProfile (s : State) (caller : Principal)
    (displayName : String) (mode : PersonalityMode) (language : String) :
    State × Res :=
  match Tbl.get s.profiles caller with
  | some existingProfile =>
    let updatedProfile : Profile :=
      { displayName := displayName
        personalityMode := mode
        preferredLanguage := language
        createdAt := existingProfile.createdAt }
    ({ s with profiles := Tbl.add natLtb s.profiles caller updatedProfile }, Res.ok)
  | none => (s, Res.trap msgProfileUpdateMissing)

/-- `getProfile`. -/
def getProfile (s : State) (caller : Principal) : State × Res :=
  match Tbl.get s.profiles caller with
  | some profile => (s, Res.profileRes profile)
  | none => (s, Res.trap msgProfileMissing)

/-- `createChatSession`. -/
def createChatSession (s : State) (caller : Principal) (now : Int)
    (title : String) : State × Res :=
  let session : ChatSession :=
    { id := intToText now
      title := title
      createdAt := now
      messages := [] }
  let userSessions :=
    match Tbl.get s.chatSessions caller with
    | some sessions => sessions
    | none => Tbl.empty
  let userSessions := Tbl.add strLtb userSessions session.id session
  ({ s with chatSessions := Tbl.add natLtb s.chatSessions caller userSessions },
    Res.createdId session.id)

/-- `addMessage`. -/
def addMessage (s : State) (caller : Principal) (now : Int)
    (sessionId : String) (role : String) (content : String) : State × Res :=
  match Tbl.get s.chatSessions caller with
  | some userSessions =>
    match Tbl.get userSessions sessionId with
    | some session =>
      let message : Message := { role := role, content := content, timestamp := now }
      let session := { session with messages := session.messages ++ [message] }
      ({ s with chatSessions :=
          (Tbl.add natLtb s.chatSessions caller
            (Tbl.add strLtb userSessions sessionId session)) },
        Res.ok)
    | none => (s, Res.trap msgSessionNotFound)
  | none => (s, Res.trap msgNoSessions)

/-- `getChatSessions` (note: no sort is applied; the values come out in the
map's ascending key order). -/
def getChatSessions (s : State) (caller : Principal) : State × Res :=
  match Tbl.get s.chatSessions caller with
  | some userSessions =>
    (s, Res.sessionsRes
      ((Tbl.values userSessions).map ChatSessionDTO.fromChatSession))
  | none => (s, Res.sessionsRes [])

/-- `getChatMessages`. -/
def getChatMessages (s : State) (caller : Principal) (sessionId : String) :
    State × Res :=
  match Tbl.get s.chatSessions caller with
  | some userSessions =>
    match Tbl.get userSessions sessionId with
    | some session => (s, Res.messagesRes session.messages)
    | none => (s, Res.trap msgSessionNotFound)
  | none => (s, Res.trap msgNoSessions)

/-- `deleteChatSession`. -/
def deleteChatSession (s : State) (caller : Principal) (sessionId : String) :
    State × Res :=
  match Tbl.get s.chatSessions caller with
  | some userSessions =>
    ({ s with chatSessions :=
        (Tbl.add natLtb s.chatSessions caller
          (Tbl.remove userSessions sessionId)) },
      Res.ok)
  | none => (s, Res.ok)

/-- `createNote`. -/
def createNote (s : State) (caller : Principal) (now : Int)
    (title : String) (content : String) (topic : String) : State × Res :=
  let note : Note :=
    { id := intToText now
      title := title
      content := content
      topic := topic
      createdAt := now
      updatedAt := now }
  let userNotes :=
    match Tbl.get s.notes caller with
    | some n => n
    | none => Tbl.empty
  let userNotes := Tbl.add strLtb userNotes note.id note
  ({ s with notes := Tbl.add natLtb s.notes caller userNotes }, Res.createdId note.id)

/-- `updateNote`. -/
def updateNote (s : State) (caller : Principal) (now : Int)
    (noteId : String) (title : String) (content : String) (topic : String) :
    State × Res :=
  match Tbl.get s.notes caller with
  | some userNotes =>
    match Tbl.get userNotes noteId with
    | some existingNote =>
      let updatedNote : Note :=
        { id := existingNote.id
          title := title
          content := content
          topic := topic
          createdAt := existingNote.createdAt
          updatedAt := now }
      ({ s with notes :=
          (Tbl.add natLtb s.notes caller
            (Tbl.add strLtb userNotes noteId updatedNote)) },
        Res.ok)
    | none => (s, Res.ok)
  | none => (s, Res.ok)

/-- `deleteNote`. -/
def deleteNote (s : State) (caller : Principal) (noteId : String) :
    State × Res :=
  match Tbl.get s.notes caller with
  | some userNotes =>
    ({ s with notes :=
        (Tbl.add natLtb s.notes caller (Tbl.remove userNotes noteId)) },
      Res.ok)
  | none => (s, Res.ok)

/-- `getNotes`. -/
def getNotes (s : State) (caller : Principal) : State × Res :=
  match Tbl.get s.notes caller with
  | some userNotes => (s, Res.notesRes (Tbl.values userNotes))
  | none => (s, Res.notesRes [])

/-- `getNote`. -/
def getNote (s : State) (caller : Principal) (noteId : String) : State × Res :=
  match Tbl.get s.notes caller with
  | some userNotes =>
    match Tbl.get userNotes noteId with
    | some note => (s, Res.noteRes note)
    | none => (s, Res.trap msgNoteNotFound)
  | none => (s, Res.trap msgNoNotes)

/-- `createDeck`. -/
def createDeck (s : State) (caller : Principal) (now : Int)
    (name : String) (subject : String) : State × Res :=
  let deck : FlashcardDeck :=
    { id := intToText now
      name := name
      subject := subject
      cards := [] }
  let userDecks :=
    match Tbl.get s.flashcardDecks caller with
    | some d => d
    | none => Tbl.empty
  let userDecks := Tbl.add strLtb userDecks deck.id deck
  ({ s with flashcardDecks := Tbl.add natLtb s.flashcardDecks caller userDecks },
    Res.createdId deck.id)

/-- `addCard`. -/
def addCard (s : State) (caller : Principal) (now : Int)
    (deckId : String) (front : String) (back : String) : State × Res :=
  match Tbl.get s.flashcardDecks caller with
  | some userDecks =>
    match Tbl.get userDecks deckId with
    | some deck =>
      let card : Flashcard :=
        { id := intToText now
          front := front
          back := back
          difficulty := 1
          nextReview := now
          interval := 0
          easeFactor := mkRat 5 2 }
      let deck := { deck with cards := deck.cards ++ [card] }
      ({ s with flashcardDecks :=
          (Tbl.add natLtb s.flashcardDecks caller
            (Tbl.add strLtb userDecks deckId deck)) },
        Res.createdId card.id)
    | none => (s, Res.trap msgDeckNotFound)
  | none => (s, Res.trap msgNoDecks)

/-- The per-card replacement function inside `updateCardReview`. -/
def reviewCardUpdate (now : Int) (cardId : String) (interval : Int)
    (easeFactor : Rat) (card : Flashcard) : Flashcard :=
  if card.id = cardId then
    { id := card.id
      front := card.front
      back := card.back
      nextReview := now + interval * 24 * 60 * 60 * 1000000000
      difficulty := card.difficulty
      interval := interval
      easeFactor := easeFactor }
  else card

/-- `updateCardReview`. -/
def updateCardReview (s : State) (caller : Principal) (now : Int)
    (deckId : String) (cardId : String) (interval : Int) (easeFactor : Rat) :
    State × Res :=
  match Tbl.get s.flashcardDecks caller with
  | some userDecks =>
    match Tbl.get userDecks deckId with
    | some deck =>
      let updatedCards :=
        deck.cards.map (reviewCardUpdate now cardId interval easeFactor)
      let deck := { deck with cards := updatedCards }
      ({ s with flashcardDecks :=
          (Tbl.add natLtb s.flashcardDecks caller
            (Tbl.add strLtb userDecks deckId deck)) },
        Res.ok)
    | none => (s, Res.trap msgDeckNotFound)
  | none => (s, Res.trap msgNoDecks)

/-- `getDecks`. -/
def getDecks (s : State) (caller : Principal) : State × Res :=
  match Tbl.get s.flashcardDecks caller with
  | some userDecks =>
    (s, Res.decksRes
      ((Tbl.values userDecks).map FlashcardDeckDTO.fromFlashcardDeck))
  | none => (s, Res.decksRes [])

/-- `getDeckCards`. -/
def getDeckCards (s : State) (caller : Principal) (deckId : String) :
    State × Res :=
  match Tbl.get s.flashcardDecks caller with
  | some userDecks =>
    match Tbl.get userDecks deckId with
    | some deck => (s, Res.cardsRes deck.cards)
    | none => (s, Res.trap msgDeckNotFound)
  | none => (s, Res.trap msgNoDecks)

/-- `recordQuizResult`. -/
def recordQuizResult (s : State) (caller : Principal) (now : Int)
    (subject : String) (score : Int) (totalQuestions : Int) : State × Res :=
  let result : QuizResult :=
    { id := intToText now
      subject := subject
      score := score
      totalQuestions := totalQuestions
      timestamp := now }
  let userResults :=
    match Tbl.get s.quizResults caller with
    | some r => r
    | none => Tbl.empty
  let userResults := Tbl.add strLtb userResults result.id result
  ({ s with quizResults := Tbl.add natLtb s.quizResults caller userResults },
    Res.createdId result.id)

/-- Insertion step of `.sort(QuizResult.compareByTimestampDesc)`. -/
def insertQuizDesc (q : QuizResult) : List QuizResult → List QuizResult
  | [] => [q]
  | r :: rest =>
    if r.timestamp ≤ q.timestamp then q :: r :: rest
    else r :: insertQuizDesc q rest

/-- `.toArray().sort(QuizResult.compareByTimestampDesc)`: sort by descending
timestamp. -/
def sortQuizDesc : List QuizResult → List QuizResult
  | [] => []
  | q :: rest => insertQuizDesc q (sortQuizDesc rest)

/-- `getQuizResults`. -/
def getQuizResults (s : State) (caller : Principal) : State × Res :=
  match Tbl.get s.quizResults caller with
  | some userResults =>
    (s, Res.quizzesRes (sortQuizDesc (Tbl.values userResults)))
  | none => (s, Res.quizzesRes [])

/-- `recordStudyActivity` (Motoko `Int` division `/` truncates toward zero,
modelled with `Int.tdiv`). -/
def recordStudyActivity (s : State) (caller : Principal) (now : Int) :
    State × Res :=
  let today := now
  match Tbl.get s.studyStreaks caller with
  | some existing =>
    let lastActivityDay := existing.lastStudyDate.tdiv nsPerDay
    let todayDay := today.tdiv nsPerDay
    let updatedStreak : StudyStreak :=
      { currentStreak :=
          if lastActivityDay = todayDay - 1 then existing.currentStreak + 1
          else 1
        lastStudyDate := today }
    ({ s with studyStreaks := Tbl.add natLtb s.studyStreaks caller updatedStreak },
      Res.ok)
  | none =>
    ({ s with studyStreaks :=
        (Tbl.add natLtb s.studyStreaks caller
          ({ currentStreak := 1, lastStudyDate := today } : StudyStreak)) },
      Res.ok)

/-- `getStudyStreak`. -/
def getStudyStreak (s : State) (caller : Principal) : State × Res :=
  match Tbl.get s.studyStreaks caller with
  | some streak => (s, Res.streakRes streak)
  | none => (s, Res.streakRes { currentStreak := 0, lastStudyDate := 0 })

/-- `createGoal`. -/
def createGoal (s : State) (caller : Principal) (now : Int)
    (title : String) (description : String) (targetDate : Int) : State × Res :=
  let goal : Goal :=
    { id := intToText now
      title := title
      description := description
      targetDate := targetDate
      isCompleted := false
      createdAt := now }
  let userGoals :=
    match Tbl.get s.goals caller with
    | some g => g
    | none => Tbl.empty
  let userGoals := Tbl.add strLtb userGoals goal.id goal
  ({ s with goals := Tbl.add natLtb s.goals caller userGoals }, Res.createdId goal.id)

/-- `completeGoal`. -/
def completeGoal (s : State) (caller : Principal) (goalId : String) :
    State × Res :=
  match Tbl.get s.goals caller with
  | some userGoals =>
    match Tbl.get userGoals goalId with
    | some existingGoal =>
      let updatedGoal : Goal :=
        { id := existingGoal.id
          title := existingGoal.title
          description := existingGoal.description
          targetDate := existingGoal.targetDate
          isCompleted := true
          createdAt := existingGoal.createdAt }
      ({ s with goals :=
          (Tbl.add natLtb s.goals caller
            (Tbl.add strLtb userGoals goalId updatedGoal)) },
        Res.ok)
    | none => (s, Res.trap msgGoalNotFound)
  | none => (s, Res.trap msgNoGoals)

/-- `getGoals`. -/
def getGoals (s : State) (caller : Principal) : State × Res :=
  match Tbl.get s.goals caller with
  | some userGoals => (s, Res.goalsRes (Tbl.values userGoals))
  | none => (s, Res.goalsRes [])

/-- `updateProgressStat`. -/
def updateProgressStat (s : State) (caller : Principal) (now : Int)
    (subject : String) (masteryPercent : Rat) : State × Res :=
  let stat : ProgressStat :=
    { subject := subject
      masteryPercent := masteryPercent
      lastUpdated := now }
  let userStats :=
    match Tbl.get s.progressStats caller with
    | some st => st
    | none => Tbl.empty
  let userStats := Tbl.add strLtb userStats subject stat
  ({ s with progressStats := Tbl.add natLtb s.progressStats caller userStats },
    Res.ok)

/-- `getProgressStats`. -/
def getProgressStats (s : State) (caller : Principal) : State × Res :=
  match Tbl.get s.progressStats caller with
  | some userStats => (s, Res.statsRes (Tbl.values userStats))
  | none => (s, Res.statsRes [])

/-! ### The full operation surface, traces, and tenant views -/

/-- One externally visible call, with its explicit parameters. -/
inductive Op where
  | createProfile (displayName : String) (mode : PersonalityMode) (language : String)
  | updateProfile (displayName : String) (mode : PersonalityMode) (language : String)
  | getProfile
  | createChatSession (title : String)
  | addMessage (sessionId role content : String)
  | getChatSessions
  | getChatMessages (sessionId : String)
  | deleteChatSession (sessionId : String)
  | createNote (title content topic : String)
  | updateNote (noteId title content topic : String)
  | deleteNote (noteId : String)
  | getNotes
  | getNote (noteId : String)
  | createDeck (name subject : String)
  | addCard (deckId front back : String)
  | updateCardReview (deckId cardId : String) (interval : Int) (easeFactor : Rat)
  | getDecks
  | getDeckCards (deckId : String)
  | recordQuizResult (subject : String) (score totalQuestions : Int)
  | getQuizResults
  | recordStudyActivity
  | getStudyStreak
  | createGoal (title description : String) (targetDate : Int)
  | completeGoal (goalId : String)
  | getGoals
  | updateProgressStat (subject : String) (masteryPercent : Rat)
  | getProgressStats
deriving DecidableEq

/-- Dispatch one call against the store. -/
def exec (op : Op) (caller : Principal) (now : Int) (s : State) : State × Res :=
  match op with
  | .createProfile d m l => createProfile s caller now d m l
  | .updateProfile d m l => updateProfile s caller d m l
  | .getProfile => getProfile s caller
  | .createChatSession title => createChatSession s caller now title
  | .addMessage sid role content => addMessage s caller now sid role content
  | .getChatSessions => getChatSessions s caller
  | .getChatMessages sid => getChatMessages s caller sid
  | .deleteChatSession sid => deleteChatSession s caller sid
  | .createNote t c tp => createNote s caller now t c tp
  | .updateNote nid t c tp => updateNote s caller now nid t c tp
  | .deleteNote nid => deleteNote s caller nid
  | .getNotes => getNotes s caller
  | .getNote nid => getNote s caller nid
  | .createDeck n sub => createDeck s caller now n sub
  | .addCard did f b => addCard s caller now did f b
  | .updateCardReview did cid iv ef => updateCardReview s caller now did cid iv ef
  | .getDecks => getDecks s caller
  | .getDeckCards did => getDeckCards s caller did
  | .recordQuizResult sub sc tq => recordQuizResult s caller now sub sc tq
  | .getQuizResults => getQuizResults s caller
  | .recordStudyActivity => recordStudyActivity s caller now
  | .getStudyStreak => getStudyStreak s caller
  | .createGoal t d td => createGoal s caller now t d td
  | .completeGoal gid => completeGoal s caller gid
  | .getGoals => getGoals s caller
  | .updateProgressStat sub mp => updateProgressStat s caller now sub mp
  | .getProgressStats => getProgressStats s caller

/-- One call event: who called, the clock value, and the operation. -/
structure Event where
  caller : Principal
  now : Int
  op : Op
deriving DecidableEq

/-- Run a sequence of calls. -/
def run : List Event → State → State
  | [], s => s
  | e :: rest, s => run rest (exec e.op e.caller e.now s).1

/-- The `(caller, result)` pairs produced along a trace. -/
def traceOuts : List Event → State → List (Principal × Res)
  | [], _ => []
  | e :: rest, s =>
    (e.caller, (exec e.op e.caller e.now s).2) ::
      traceOuts rest (exec e.op e.caller e.now s).1

/-- The results returned to one caller along a trace. -/
def outputsOf (p : Principal) (tr : List Event) (s : State) : List Res :=
  (traceOuts tr s).filterMap fun pr => if pr.1 = p then some pr.2 else none

/-- Everything a tenant can ever observe of the store: its own slice of the
eight maps. -/
structure TenantView where
  profile : Option Profile
  sessions : Option (Tbl String ChatSession)
  notes : Option (Tbl String Note)
  decks : Option (Tbl String FlashcardDeck)
  quizzes : Option (Tbl String QuizResult)
  goals : Option (Tbl String Goal)
  stats : Option (Tbl String ProgressStat)
  streak : Option StudyStreak
deriving DecidableEq

/-- The slice of the state belonging to principal `p`. -/
def tenantView (s : State) (p : Principal) : TenantView :=
  { profile := Tbl.get s.profiles p
    sessions := Tbl.get s.chatSessions p
    notes := Tbl.get s.notes p
    decks := Tbl.get s.flashcardDecks p
    quizzes := Tbl.get s.quizResults p
    goals := Tbl.get s.goals p
    stats := Tbl.get s.progressStats p
    streak := Tbl.get s.studyStreaks p }

/-- Two states that agree on every tenant other than `B`. -/
def AgreeOff (B : Principal) (s t : State) : Prop :=
  ∀ q, ¬ q = B → tenantView s q = tenantView t q

/-! ### Representation invariants of reachable states -/

/-- Both levels of a nested map are key-sorted. -/
abbrev Sorted2 {V : Type} (m : Tbl Principal (Tbl String V)) : Prop :=
  Tbl.SortedKeys natLtb m ∧ ∀ e ∈ m, Tbl.SortedKeys strLtb e.2

/-- All eight maps of the state are well-formed (key-sorted at both
levels). -/
abbrev WF (s : State) : Prop :=
  Tbl.SortedKeys natLtb s.profiles ∧ Sorted2 s.chatSessions ∧
    Sorted2 s.notes ∧ Sorted2 s.flashcardDecks ∧ Sorted2 s.quizResults ∧
    Sorted2 s.goals ∧ Sorted2 s.progressStats ∧
    Tbl.SortedKeys natLtb s.studyStreaks

/-- In every reachable state, each stored chat session sits under the map
key equal to its own `id` field. -/
def ChatKeyId (s : State) : Prop :=
  ∀ e ∈ s.chatSessions, ∀ kv ∈ e.2, kv.2.id = kv.1

/-! ### Concrete inputs used by the witness theorems -/

/-- A trace whose events are all by tenant 1 and then one read by tenant 0. -/
def wTrace : List Event :=
  [{ caller := 1, now := 7, op := Op.createNote "t" "c" "x" },
   { caller := 0, now := 8, op := Op.getNotes }]

/-- A state in which tenant 0 has a streak of 3 last recorded on day 0. -/
def wStreakState : State :=
  { initState with
    studyStreaks := [(0, { currentStreak := 3, lastStudyDate := 0 })] }

/-- A trace with no events by tenant 0. -/
def wTrace9 : List Event :=
  [{ caller := 1, now := 3, op := Op.createNote "a" "b" "c" },
   { caller := 1, now := 4, op := Op.recordStudyActivity }]

/-- The streak recurrence exactly as the specification states it, for
comparison with `recordStudyActivity`: 1 with no prior record; previous+1
when the prior day is exactly yesterday; 1 otherwise; `lastStudyDate`
always set to `now`. -/
def streakSpec (prev : Option StudyStreak) (now : Int) : StudyStreak :=
  { currentStreak :=
      match prev with
      | none => 1
      | some ex =>
        if ex.lastStudyDate.tdiv nsPerDay = now.tdiv nsPerDay - 1
        then ex.currentStreak + 1 else 1
    lastStudyDate := now }

/-- The flashcard bounds of the specification: every stored card has
easeFactor ≥ 1.3 and interval ≥ 0. -/
abbrev flashInv (s : State) : Prop :=
  ∀ e ∈ s.flashcardDecks, ∀ kd ∈ e.2, ∀ c ∈ kd.2.cards,
    mkRat 13 10 ≤ c.easeFactor ∧ 0 ≤ c.interval

/-- createDeck, addCard, then updateCardReview with caller-supplied
interval −1 and easeFactor 1. -/
def c4Trace : List Event :=
  [{ caller := 0, now := 1, op := Op.createDeck "Bio" "Biology" },
   { caller := 0, now := 2, op := Op.addCard "1" "Q" "A" },
   { caller := 0, now := 3, op := Op.updateCardReview "1" "2" (-1) 1 }]

/-- A concrete flashcard. -/
def wCard : Flashcard :=
  { id := "2"
    front := "Q"
    back := "A"
    difficulty := 1
    nextReview := 2
    interval := 0
    easeFactor := mkRat 5 2 }

/-- A concrete deck holding `wCard`. -/
def wDeck : FlashcardDeck :=
  { id := "1", name := "Bio", subject := "Biology", cards := [wCard] }

/-- A state in which tenant 0 owns deck `wDeck` under key "1". -/
def wDeckState : State :=
  { initState with flashcardDecks := [(0, [("1", wDeck)])] }

/-- A concrete note. -/
def wNote : Note :=
  { id := "9", title := "n", content := "c", topic := "t", createdAt := 1,
    updatedAt := 1 }

/-- A state in which tenant 0 owns note `wNote` under key "9" and has no
chat sessions. -/
def wNoteState : State :=
  { initState with notes := [(0, [("9", wNote)])] }

/-- Two chat sessions created by tenant 0 at times 1 and 2. -/
def c6Trace : List Event :=
  [{ caller := 0, now := 1, op := Op.createChatSession "a" },
   { caller := 0, now := 2, op := Op.createChatSession "b" }]

/-- The session created at time 1. -/
def wSessA : ChatSession :=
  { id := "1", title := "a", createdAt := 1, messages := [] }

/-- The session created at time 2. -/
def wSessB : ChatSession :=
  { id := "2", title := "b", createdAt := 2, messages := [] }

/-- createGoal at time 5, then completeGoal — all clock values
non-decreasing. -/
def c8Trace2 : List Event :=
  [{ caller := 0, now := 5, op := Op.createGoal "g" "d" 99 },
   { caller := 0, now := 5, op := Op.completeGoal "5" }]

/-- `c8Trace2` followed by a second createGoal at the same clock value 5,
whose id "5" collides with the completed goal. -/
def c8Trace3 : List Event :=
  c8Trace2 ++ [{ caller := 0, now := 5, op := Op.createGoal "g2" "d2" 99 }]

/-- A concrete completed goal. -/
def wGoalDone : Goal :=
  { id := "5", title := "g", description := "d", targetDate := 99,
    isCompleted := true, createdAt := 5 }

/-- A state in which tenant 0 owns the completed goal `wGoalDone`. -/
def wGoalState : State :=
  { initState with goals := [(0, [("5", wGoalDone)])] }

/-! ### Lemmas about the ordered tables -/

namespace Tbl

theorem LtbLaws.irrefl {K : Type} {ltb : K → K → Bool} (L : LtbLaws ltb)
    (a : K) : ltb a a = false := by
  cases h : ltb a a
  · rfl
  · exact absurd (h.symm.trans (L.asymm a a h)) (by decide)

theorem get_add {K V : Type} [DecidableEq K] (ltb : K → K → Bool)
    (m : Tbl K V) (k j : K) (v : V) :
    get (add ltb m k v) j = if j = k then some v else get m j := by
  induction m with
  | nil => by_cases hj : j = k <;> simp [add, get, hj]
  | cons hd tl ih =>
    obtain ⟨k', v'⟩ := hd
    by_cases hlt : ltb k k' = true
    · by_cases hj : j = k <;> simp [add, hlt, get, hj]
    · by_cases heq : k = k'
      · subst heq
        by_cases hj : j = k <;> simp [add, hlt, get, hj]
      · by_cases hj : j = k'
        · subst hj
          have hne : ¬ j = k := fun h => heq h.symm
          simp [add, hlt, heq, get, hne]
        · simp [add, hlt, heq, get, hj, ih]

theorem get_remove {K V : Type} [DecidableEq K] (m : Tbl K V) (k j : K) :
    get (remove m k) j = if j = k then none else get m j := by
  induction m with
  | nil => simp [remove, get]
  | cons hd tl ih =>
    obtain ⟨k', v'⟩ := hd
    by_cases hk : k' = k
    · subst hk
      have hr : remove ((k', v') :: tl) k' = remove tl k' := by simp [remove]
      rw [hr, ih]
      by_cases hj : j = k' <;> simp [get, hj]
    · simp only [remove, if_neg hk]
      by_cases hj : j = k'
      · have hne : ¬ j = k := by rw [hj]; exact hk
        simp [get, hj, hne, hk]
      · simp [get, hj, ih]

theorem mem_add {K V : Type} [DecidableEq K] (ltb : K → K → Bool)
    (m : Tbl K V) (k : K) (v : V)
    (x : K × V) (hx : x ∈ add ltb m k v) : x = (k, v) ∨ x ∈ m := by
  induction m with
  | nil => simpa [add] using hx
  | cons hd tl ih =>
    obtain ⟨k', v'⟩ := hd
    by_cases hlt : ltb k k' = true
    · simp only [add, if_pos hlt] at hx
      rcases List.mem_cons.mp hx with h | h
      · exact Or.inl h
      · exact Or.inr h
    · by_cases heq : k = k'
      · subst heq
        simp only [add, if_neg hlt, if_pos rfl] at hx
        rcases List.mem_cons.mp hx with h | h
        · exact Or.inl h
        · exact Or.inr (List.mem_cons_of_mem _ h)
      · simp only [add, if_neg hlt, if_neg heq] at hx
        rcases List.mem_cons.mp hx with h | h
        · exact Or.inr (by rw [h]; exact List.mem_cons_self _ _)
        · rcases ih h with h' | h'
          · exact Or.inl h'
          · exact Or.inr (List.mem_cons_of_mem _ h')

theorem mem_of_get {K V : Type} [DecidableEq K] (m : Tbl K V) (k : K) (v : V)
    (h : get m k = some v) : (k, v) ∈ m := by
  induction m with
  | nil => simp [get] at h
  | cons hd tl ih =>
    obtain ⟨k', v'⟩ := hd
    by_cases hk : k = k'
    · subst hk
      have h' : v' = v := by simpa [get] using h
      rw [← h']
      exact List.mem_cons_self _ _
    · simp only [get, if_neg hk] at h
      exact List.mem_cons_of_mem _ (ih h)

theorem sorted_add {K V : Type} [DecidableEq K] {ltb : K → K → Bool}
    (L : LtbLaws ltb) (m : Tbl K V) (k : K) (v : V)
    (hm : SortedKeys ltb m) : SortedKeys ltb (add ltb m k v) := by
  induction m with
  | nil => simp [add, SortedKeys]
  | cons hd tl ih =>
    obtain ⟨k', v'⟩ := hd
    rcases List.pairwise_cons.mp hm with ⟨hhd, htl⟩
    by_cases hlt : ltb k k' = true
    · simp only [add, if_pos hlt]
      refine List.pairwise_cons.mpr ⟨?_, hm⟩
      intro x hx
      rcases List.mem_cons.mp hx with h | h
      · rw [h]; exact hlt
      · exact L.ltrans _ _ _ hlt (hhd x h)
    · by_cases heq : k = k'
      · subst heq
        simp only [add, if_neg hlt, if_pos rfl]
        exact List.pairwise_cons.mpr ⟨hhd, htl⟩
      · have hk' : ltb k' k = true :=
          L.total k k' (Bool.not_eq_true _ ▸ hlt) heq
        simp only [add, if_neg hlt, if_neg heq]
        refine List.pairwise_cons.mpr ⟨?_, ih htl⟩
        intro x hx
        rcases mem_add ltb tl k v x hx with h | h
        · rw [h]; exact hk'
        · exact hhd x h

theorem remove_sublist {K V : Type} [DecidableEq K] (m : Tbl K V) (k : K) :
    List.Sublist (remove m k) m := by
  induction m with
  | nil => simp [remove]
  | cons hd tl ih =>
    obtain ⟨k', v'⟩ := hd
    by_cases hk : k' = k
    · simp only [remove, if_pos hk]
      exact List.Sublist.cons _ ih
    · simp only [remove, if_neg hk]
      exact List.Sublist.cons₂ _ ih

theorem sorted_remove {K V : Type} [DecidableEq K] {ltb : K → K → Bool}
    (m : Tbl K V) (k : K)
    (hm : SortedKeys ltb m) : SortedKeys ltb (remove m k) :=
  List.Pairwise.sublist (remove_sublist m k) hm

theorem add_self {K V : Type} [DecidableEq K] {ltb : K → K → Bool}
    (L : LtbLaws ltb) (m : Tbl K V) (k : K) (v : V)
    (hm : SortedKeys ltb m) (h : get m k = some v) : add ltb m k v = m := by
  induction m with
  | nil => simp [get] at h
  | cons hd tl ih =>
    obtain ⟨k', v'⟩ := hd
    rcases List.pairwise_cons.mp hm with ⟨hhd, htl⟩
    by_cases heq : k = k'
    · subst heq
      have h' : v' = v := by simpa [get] using h
      rw [← h']
      simp [add, L.irrefl]
    · have hget : get tl k = some v := by simpa [get, heq] using h
      have hmem : (k, v) ∈ tl := mem_of_get tl k v hget
      have hk' : ltb k' k = true := hhd _ hmem
      have hlt : ltb k k' = false := L.asymm k' k hk'
      simp [add, hlt, heq, ih htl hget]

theorem remove_eq_self {K V : Type} [DecidableEq K] (m : Tbl K V) (k : K)
    (h : get m k = none) : remove m k = m := by
  induction m with
  | nil => simp [remove]
  | cons hd tl ih =>
    obtain ⟨k', v'⟩ := hd
    by_cases hk : k = k'
    · subst hk
      simp [get] at h
    · have hget : get tl k = none := by simpa [get, hk] using h
      have hne : ¬ k' = k := fun hh => hk hh.symm
      simp [remove, hne, ih hget]

end Tbl

theorem natLtbLaws : Tbl.LtbLaws natLtb := by
  refine ⟨?_, ?_, ?_⟩
  · intro a b h
    simp only [natLtb, decide_eq_true_eq] at h
    simp only [natLtb, decide_eq_false_iff_not]
    exact lt_asymm h
  · intro a b c h1 h2
    simp only [natLtb, decide_eq_true_eq] at h1 h2 ⊢
    exact lt_trans h1 h2
  · intro a b h hne
    simp only [natLtb, decide_eq_false_iff_not] at h
    simp only [natLtb, decide_eq_true_eq]
    rcases lt_trichotomy a b with hh | hh | hh
    · exact absurd hh h
    · exact absurd hh hne
    · exact hh

theorem charListLtb_trans : ∀ l1 l2 l3 : List Char,
    charListLtb l1 l2 = true → charListLtb l2 l3 = true →
    charListLtb l1 l3 = true := by
  intro l1
  induction l1 with
  | nil =>
    intro l2 l3 h12 h23
    cases l3 with
    | nil =>
      cases l2 with
      | nil => simp [charListLtb] at h12
      | cons d ds => simp [charListLtb] at h23
    | cons e es => simp [charListLtb]
  | cons c cs ih =>
    intro l2 l3 h12 h23
    cases l2 with
    | nil => simp [charListLtb] at h12
    | cons d ds =>
      cases l3 with
      | nil => simp [charListLtb] at h23
      | cons e es =>
        simp only [charListLtb] at h12 h23 ⊢
        by_cases hcd : c < d
        · by_cases hde : d < e
          · simp [lt_trans hcd hde]
          · by_cases hed : e < d
            · simp [hde, hed] at h23
            · have hdeq : d = e := le_antisymm (not_lt.mp hed) (not_lt.mp hde)
              subst hdeq
              simp [hcd]
        · by_cases hdc : d < c
          · simp [hcd, hdc] at h12
          · have hceq : c = d := le_antisymm (not_lt.mp hdc) (not_lt.mp hcd)
            subst hceq
            simp only [hcd, lt_irrefl, if_false] at h12
            by_cases hde : c < e
            · simp [hde]
            · by_cases hed : e < c
              · simp [hde, hed] at h23
              · simp only [hde, hed, if_false]
                simp only [hde, hed, if_false] at h23
                exact ih ds es h12 h23

theorem charListLtb_asymm : ∀ l1 l2 : List Char,
    charListLtb l1 l2 = true → charListLtb l2 l1 = false := by
  intro l1
  induction l1 with
  | nil =>
    intro l2 h
    cases l2 with
    | nil => simp [charListLtb] at h
    | cons d ds => simp [charListLtb]
  | cons c cs ih =>
    intro l2 h
    cases l2 with
    | nil => simp [charListLtb] at h
    | cons d ds =>
      simp only [charListLtb] at h ⊢
      by_cases hcd : c < d
      · have hdc : ¬ d < c := fun hh => absurd (lt_trans hcd hh) (lt_irrefl c)
        simp [hcd, hdc]
      · by_cases hdc : d < c
        · simp [hcd, hdc] at h
        · have hceq : c = d := le_antisymm (not_lt.mp hdc) (not_lt.mp hcd)
          subst hceq
          simp only [lt_irrefl, if_false] at h ⊢
          exact ih ds h

theorem charListLtb_total : ∀ l1 l2 : List Char,
    charListLtb l1 l2 = false → ¬ l1 = l2 → charListLtb l2 l1 = true := by
  intro l1
  induction l1 with
  | nil =>
    intro l2 h hne
    cases l2 with
    | nil => exact absurd rfl hne
    | cons d ds => simp [charListLtb] at h
  | cons c cs ih =>
    intro l2 h hne
    cases l2 with
    | nil => simp [charListLtb]
    | cons d ds =>
      simp only [charListLtb] at h ⊢
      by_cases hcd : c < d
      · simp [hcd] at h
      · by_cases hdc : d < c
        · simp [hdc]
        · have hceq : c = d := le_antisymm (not_lt.mp hdc) (not_lt.mp hcd)
          subst hceq
          simp only [lt_irrefl, if_false] at h ⊢
          refine ih ds h ?_
          intro hh
          exact hne (by rw [hh])

theorem strLtbLaws : Tbl.LtbLaws strLtb := by
  constructor
  · intro a b h
    exact charListLtb_asymm a.data b.data h
  · intro a b c h1 h2
    exact charListLtb_trans a.data b.data c.data h1 h2
  · intro a b h hne
    refine charListLtb_total a.data b.data h ?_
    intro hd
    exact hne (String.ext hd)

/-- Frame property: an operation by `c` does not change any other tenant's
slice of the store. -/
theorem exec_frame (op : Op) (c : Principal) (now : Int) (s : State)
    (q : Principal) (hq : ¬ q = c) :
    tenantView (exec op c now s).1 q = tenantView s q := by
  cases op <;>
    (simp only [exec, createProfile, updateProfile, getProfile,
      createChatSession, addMessage, getChatSessions, getChatMessages,
      deleteChatSession, createNote, updateNote, deleteNote, getNotes,
      getNote, createDeck, addCard, updateCardReview, getDecks, getDeckCards,
      recordQuizResult, getQuizResults, recordStudyActivity, getStudyStreak,
      createGoal, completeGoal, getGoals, updateProgressStat,
      getProgressStats, Tbl.containsKey]
     repeat' split
     all_goals simp [tenantView, Tbl.get_add, hq])

/-- Locality property: the result of an operation by `c`, and `c`'s slice of
the resulting store, depend only on `c`'s slice of the input store. -/
theorem exec_local (op : Op) (c : Principal) (now : Int) (s t : State)
    (h : tenantView s c = tenantView t c) :
    (exec op c now s).2 = (exec op c now t).2 ∧
      tenantView (exec op c now s).1 c = tenantView (exec op c now t).1 c := by
  have h1 : Tbl.get s.profiles c = Tbl.get t.profiles c :=
    congrArg TenantView.profile h
  have h2 : Tbl.get s.chatSessions c = Tbl.get t.chatSessions c :=
    congrArg TenantView.sessions h
  have h3 : Tbl.get s.notes c = Tbl.get t.notes c :=
    congrArg TenantView.notes h
  have h4 : Tbl.get s.flashcardDecks c = Tbl.get t.flashcardDecks c :=
    congrArg TenantView.decks h
  have h5 : Tbl.get s.quizResults c = Tbl.get t.quizResults c :=
    congrArg TenantView.quizzes h
  have h6 : Tbl.get s.goals c = Tbl.get t.goals c :=
    congrArg TenantView.goals h
  have h7 : Tbl.get s.progressStats c = Tbl.get t.progressStats c :=
    congrArg TenantView.stats h
  have h8 : Tbl.get s.studyStreaks c = Tbl.get t.studyStreaks c :=
    congrArg TenantView.streak h
  cases op <;>
    (simp only [exec, createProfile, updateProfile, getProfile,
      createChatSession, addMessage, getChatSessions, getChatMessages,
      deleteChatSession, createNote, updateNote, deleteNote, getNotes,
      getNote, createDeck, addCard, updateCardReview, getDecks, getDeckCards,
      recordQuizResult, getQuizResults, recordStudyActivity, getStudyStreak,
      createGoal, completeGoal, getGoals, updateProgressStat,
      getProgressStats, Tbl.containsKey]
     simp only [h1, h2, h3, h4, h5, h6, h7, h8]
     repeat' split
     all_goals
       simp [tenantView, Tbl.get_add, h1, h2, h3, h4, h5, h6, h7, h8])

theorem agreeOff_exec (B : Principal) (e : Event) (s t : State)
    (hB : ¬ e.caller = B) (h : AgreeOff B s t) :
    AgreeOff B (exec e.op e.caller e.now s).1 (exec e.op e.caller e.now t).1 := by
  intro q hq
  by_cases hqc : q = e.caller
  · rw [hqc]
    exact (exec_local e.op e.caller e.now s t (h e.caller hB)).2
  · rw [exec_frame e.op e.caller e.now s q hqc,
      exec_frame e.op e.caller e.now t q hqc]
    exact h q hq

theorem agreeOff_skip (B : Principal) (e : Event) (s t : State)
    (hB : e.caller = B) (h : AgreeOff B s t) :
    AgreeOff B (exec e.op e.caller e.now s).1 t := by
  intro q hq
  rw [exec_frame e.op e.caller e.now s q (by rw [hB]; exact hq)]
  exact h q hq

theorem outputsOf_cons (p : Principal) (e : Event) (rest : List Event)
    (s : State) :
    outputsOf p (e :: rest) s =
      (if e.caller = p then [(exec e.op e.caller e.now s).2] else []) ++
        outputsOf p rest (exec e.op e.caller e.now s).1 := by
  by_cases h : e.caller = p <;>
    simp [outputsOf, traceOuts, List.filterMap_cons, h]

theorem filterOff_cons (B : Principal) (e : Event) (rest : List Event) :
    (e :: rest).filter (fun x => decide (¬ x.caller = B)) =
      if e.caller = B then rest.filter (fun x => decide (¬ x.caller = B))
      else e :: rest.filter (fun x => decide (¬ x.caller = B)) := by
  by_cases h : e.caller = B <;> simp [List.filter_cons, h]

/-- Deleting `B`'s events from a trace changes none of the results another
tenant `A` receives (computed over states agreeing off `B`). -/
theorem outputs_filter (A B : Principal) (hA : ¬ A = B) :
    ∀ (tr : List Event) (s t : State), AgreeOff B s t →
      outputsOf A tr s =
        outputsOf A (tr.filter fun e => decide (¬ e.caller = B)) t := by
  intro tr
  induction tr with
  | nil => intro s t _; simp [outputsOf, traceOuts]
  | cons e rest ih =>
    intro s t hst
    rw [outputsOf_cons, filterOff_cons]
    by_cases hB : e.caller = B
    · have hcA : ¬ e.caller = A := by rw [hB]; exact fun hh => hA hh.symm
      rw [if_pos hB, if_neg hcA]
      simpa using ih _ t (agreeOff_skip B e s t hB hst)
    · have hres := exec_local e.op e.caller e.now s t (hst e.caller hB)
      rw [if_neg hB, outputsOf_cons, hres.1]
      have hrec := ih _ _ (agreeOff_exec B e s t hB hst)
      by_cases hcA : e.caller = A <;>
        (simp only [hcA, decide_not] at hrec; simp [hcA, decide_not, hrec])

/-- A trace with no events by `p` leaves `p`'s slice unchanged. -/
theorem run_fresh (p : Principal) :
    ∀ (tr : List Event) (s : State), (∀ e ∈ tr, ¬ e.caller = p) →
      tenantView (run tr s) p = tenantView s p := by
  intro tr
  induction tr with
  | nil => intro s _; rfl
  | cons e rest ih =>
    intro s h
    have he : ¬ e.caller = p := h e (List.mem_cons_self _ _)
    have hrest : ∀ e' ∈ rest, ¬ e'.caller = p :=
      fun e' he' => h e' (List.mem_cons_of_mem _ he')
    calc tenantView (run rest (exec e.op e.caller e.now s).1) p
        = tenantView (exec e.op e.caller e.now s).1 p := ih _ hrest
      _ = tenantView s p := exec_frame e.op e.caller e.now s p
          (fun hh => he (by rw [hh]))

theorem sorted2_empty {V : Type} : Sorted2 (V := V) Tbl.empty :=
  ⟨List.Pairwise.nil, fun e he => absurd he (List.not_mem_nil e)⟩

theorem sorted2_add {V : Type} (m : Tbl Principal (Tbl String V))
    (p : Principal) (inner : Tbl String V) (hm : Sorted2 m)
    (hi : Tbl.SortedKeys strLtb inner) : Sorted2 (Tbl.add natLtb m p inner) := by
  refine ⟨Tbl.sorted_add natLtbLaws m p inner hm.1, ?_⟩
  intro e he
  rcases Tbl.mem_add natLtb m p inner e he with h | h
  · rw [h]
    exact hi
  · exact hm.2 e h

theorem sorted2_get {V : Type} (m : Tbl Principal (Tbl String V))
    (p : Principal) (inner : Tbl String V) (hm : Sorted2 m)
    (h : Tbl.get m p = some inner) : Tbl.SortedKeys strLtb inner :=
  hm.2 (p, inner) (Tbl.mem_of_get m p inner h)

theorem sorted2_add_add {V : Type} (m : Tbl Principal (Tbl String V))
    (p : Principal) (inner : Tbl String V) (k : String) (v : V)
    (hm : Sorted2 m) (h : Tbl.get m p = some inner) :
    Sorted2 (Tbl.add natLtb m p (Tbl.add strLtb inner k v)) :=
  sorted2_add _ _ _ hm (Tbl.sorted_add strLtbLaws _ _ _ (sorted2_get _ _ _ hm h))

theorem sorted2_add_remove {V : Type} (m : Tbl Principal (Tbl String V))
    (p : Principal) (inner : Tbl String V) (k : String)
    (hm : Sorted2 m) (h : Tbl.get m p = some inner) :
    Sorted2 (Tbl.add natLtb m p (Tbl.remove inner k)) :=
  sorted2_add _ _ _ hm (Tbl.sorted_remove _ _ (sorted2_get _ _ _ hm h))

theorem WF_initState : WF initState :=
  ⟨List.Pairwise.nil, sorted2_empty, sorted2_empty, sorted2_empty,
    sorted2_empty, sorted2_empty, sorted2_empty, List.Pairwise.nil⟩

theorem WF_exec (op : Op) (c : Principal) (now : Int) (s : State)
    (h : WF s) : WF (exec op c now s).1 := by
  obtain ⟨w1, w2, w3, w4, w5, w6, w7, w8⟩ := h
  cases op <;>
    (simp only [exec, createProfile, updateProfile, getProfile,
      createChatSession, addMessage, getChatSessions, getChatMessages,
      deleteChatSession, createNote, updateNote, deleteNote, getNotes,
      getNote, createDeck, addCard, updateCardReview, getDecks, getDeckCards,
      recordQuizResult, getQuizResults, recordStudyActivity, getStudyStreak,
      createGoal, completeGoal, getGoals, updateProgressStat,
      getProgressStats, Tbl.containsKey]
     repeat' split
     all_goals (
       refine ⟨?_, ?_, ?_, ?_, ?_, ?_, ?_, ?_⟩ <;>
         solve_by_elim [Tbl.sorted_add natLtbLaws, Tbl.sorted_add strLtbLaws,
           Tbl.sorted_remove, sorted2_add, sorted2_add_add,
           sorted2_add_remove, sorted2_get, sorted2_empty,
           List.Pairwise.nil]))

theorem WF_run (tr : List Event) : WF (run tr initState) := by
  suffices h : ∀ s, WF s → WF (run tr s) from h initState WF_initState
  induction tr with
  | nil => intro s hs; exact hs
  | cons e rest ih => intro s hs; exact ih _ (WF_exec e.op e.caller e.now s hs)

theorem chatKeyId_createChatSession (s : State) (c : Principal) (now : Int)
    (title : String) (h : ChatKeyId s) :
    ChatKeyId (createChatSession s c now title).1 := by
  rcases hgs : Tbl.get s.chatSessions c with _ | us
  · simp only [createChatSession, hgs]
    intro e he kv hkv
    rcases Tbl.mem_add _ _ _ _ _ he with h1 | h1
    · rw [h1] at hkv
      rcases Tbl.mem_add _ _ _ _ _ hkv with h2 | h2
      · rw [h2]
      · exact absurd h2 (List.not_mem_nil kv)
    · exact h e h1 kv hkv
  · simp only [createChatSession, hgs]
    intro e he kv hkv
    rcases Tbl.mem_add _ _ _ _ _ he with h1 | h1
    · rw [h1] at hkv
      rcases Tbl.mem_add _ _ _ _ _ hkv with h2 | h2
      · rw [h2]
      · exact h (c, us) (Tbl.mem_of_get _ _ _ hgs) kv h2
    · exact h e h1 kv hkv

theorem chatKeyId_addMessage (s : State) (c : Principal) (now : Int)
    (sid role content : String) (h : ChatKeyId s) :
    ChatKeyId (addMessage s c now sid role content).1 := by
  rcases hgs : Tbl.get s.chatSessions c with _ | us
  · simp only [addMessage, hgs]
    exact h
  · rcases hss : Tbl.get us sid with _ | session
    · simp only [addMessage, hgs, hss]
      exact h
    · simp only [addMessage, hgs, hss]
      intro e he kv hkv
      rcases Tbl.mem_add _ _ _ _ _ he with h1 | h1
      · rw [h1] at hkv
        rcases Tbl.mem_add _ _ _ _ _ hkv with h2 | h2
        · rw [h2]
          exact h (c, us) (Tbl.mem_of_get _ _ _ hgs) (sid, session)
            (Tbl.mem_of_get _ _ _ hss)
        · exact h (c, us) (Tbl.mem_of_get _ _ _ hgs) kv h2
      · exact h e h1 kv hkv

theorem chatKeyId_deleteChatSession (s : State) (c : Principal)
    (sid : String) (h : ChatKeyId s) :
    ChatKeyId (deleteChatSession s c sid).1 := by
  rcases hgs : Tbl.get s.chatSessions c with _ | us
  · simp only [deleteChatSession, hgs]
    exact h
  · simp only [deleteChatSession, hgs]
    intro e he kv hkv
    rcases Tbl.mem_add _ _ _ _ _ he with h1 | h1
    · rw [h1] at hkv
      exact h (c, us) (Tbl.mem_of_get _ _ _ hgs) kv
        ((Tbl.remove_sublist _ _).subset hkv)
    · exact h e h1 kv hkv

theorem chatKeyId_exec (op : Op) (c : Principal) (now : Int) (s : State)
    (h : ChatKeyId s) : ChatKeyId (exec op c now s).1 := by
  cases op <;>
    first
      | exact chatKeyId_createChatSession s c now _ h
      | exact chatKeyId_addMessage s c now _ _ _ h
      | exact chatKeyId_deleteChatSession s c _ h
      | (simp only [exec, createProfile, updateProfile, getProfile,
          getChatSessions, getChatMessages, createNote, updateNote,
          deleteNote, getNotes, getNote, createDeck, addCard,
          updateCardReview, getDecks, getDeckCards, recordQuizResult,
          getQuizResults, recordStudyActivity, getStudyStreak, createGoal,
          completeGoal, getGoals, updateProgressStat, getProgressStats,
          Tbl.containsKey]
         repeat' split
         all_goals exact h)

theorem chatKeyId_initState : ChatKeyId initState :=
  fun e he => absurd he (List.not_mem_nil e)

theorem chatKeyId_run (tr : List Event) : ChatKeyId (run tr initState) := by
  suffices h : ∀ s, ChatKeyId s → ChatKeyId (run tr s) from
    h initState chatKeyId_initState
  induction tr with
  | nil => intro s hs; exact hs
  | cons e rest ih =>
    intro s hs
    exact ih _ (chatKeyId_exec e.op e.caller e.now s hs)

/-! ### Injectivity of the decimal ID text for distinct clock values -/

theorem digitsAux_lt (fuel : Nat) : ∀ (n : Nat), ∀ d ∈ digitsAux fuel n, d < 10 := by
  induction fuel with
  | zero => intro n d hd; cases n <;> simp [digitsAux] at hd
  | succ f ih =>
    intro n d hd
    cases n with
    | zero => simp [digitsAux] at hd
    | succ m =>
      simp only [digitsAux, List.mem_cons] at hd
      rcases hd with h | h
      · rw [h]
        exact Nat.mod_lt _ (by norm_num)
      · exact ih _ d h

theorem ofDigits_digitsAux (fuel : Nat) : ∀ (n : Nat), n ≤ fuel →
    ofDigits (digitsAux fuel n) = n := by
  induction fuel with
  | zero =>
    intro n hn
    have : n = 0 := Nat.le_zero.mp hn
    rw [this]
    rfl
  | succ f ih =>
    intro n hn
    cases n with
    | zero => rfl
    | succ m =>
      have hdiv : (m + 1) / 10 ≤ f := by
        have h1 : (m + 1) / 10 < m + 1 := Nat.div_lt_self (Nat.succ_pos m) (by norm_num)
        omega
      simp only [digitsAux, ofDigits, ih _ hdiv]
      exact Nat.mod_add_div (m + 1) 10

theorem natDigits_lt (n : Nat) : ∀ d ∈ natDigits n, d < 10 :=
  digitsAux_lt n n

theorem ofDigits_natDigits (n : Nat) : ofDigits (natDigits n) = n :=
  ofDigits_digitsAux n n le_rfl

theorem digitChar_inj (d e : Nat) (hd : d < 10) (he : e < 10)
    (h : digitChar d = digitChar e) : d = e := by
  interval_cases d <;> interval_cases e <;> revert h <;> decide

theorem digitChar_ne_dash (d : Nat) : ¬ digitChar d = '-' := by
  rcases d with _ | _ | _ | _ | _ | _ | _ | _ | _ | n <;>
    first
      | decide
      | exact (by decide : ¬ ('9' : Char) = '-')

theorem map_digitChar_inj : ∀ (l1 l2 : List Nat), (∀ d ∈ l1, d < 10) →
    (∀ d ∈ l2, d < 10) → l1.map digitChar = l2.map digitChar → l1 = l2 := by
  intro l1
  induction l1 with
  | nil =>
    intro l2 _ _ h
    cases l2 with
    | nil => rfl
    | cons b t2 => simp at h
  | cons a t ih =>
    intro l2 h1 h2 h
    cases l2 with
    | nil => simp at h
    | cons b t2 =>
      simp only [List.map_cons, List.cons.injEq] at h
      have hab : a = b :=
        digitChar_inj a b (h1 a (List.mem_cons_self _ _))
          (h2 b (List.mem_cons_self _ _)) h.1
      rw [hab, ih t2 (fun d hd => h1 d (List.mem_cons_of_mem _ hd))
        (fun d hd => h2 d (List.mem_cons_of_mem _ hd)) h.2]

theorem natToText_zero_aux (n : Nat) (hn : ¬ n = 0)
    (h : ['0'] = (natDigits n).reverse.map digitChar) : False := by
  have hrev : List.map digitChar [0] = List.map digitChar ((natDigits n).reverse) := by
    simpa using h
  have h0 : [0] = (natDigits n).reverse :=
    map_digitChar_inj _ _ (by intro d hd; simp at hd; omega)
      (fun d hd => natDigits_lt n d (List.mem_reverse.mp hd)) hrev
  have hdig : natDigits n = [0] := by
    have := congrArg List.reverse h0
    simpa using this.symm
  have : n = 0 := by
    have hv := ofDigits_natDigits n
    rw [hdig] at hv
    simpa [ofDigits] using hv.symm
  exact hn this

theorem natToText_inj (m n : Nat) (h : natToText m = natToText n) : m = n := by
  have hdata : (natToText m).data = (natToText n).data := congrArg String.data h
  by_cases hm : m = 0 <;> by_cases hn : n = 0
  · rw [hm, hn]
  · exfalso
    simp only [natToText, if_pos hm, if_neg hn] at hdata
    exact natToText_zero_aux n hn hdata
  · exfalso
    simp only [natToText, if_neg hm, if_pos hn] at hdata
    exact natToText_zero_aux m hm hdata.symm
  · simp only [natToText, if_neg hm, if_neg hn] at hdata
    have hr : (natDigits m).reverse = (natDigits n).reverse :=
      map_digitChar_inj _ _
        (fun d hd => natDigits_lt m d (List.mem_reverse.mp hd))
        (fun d hd => natDigits_lt n d (List.mem_reverse.mp hd)) hdata
    have hdig : natDigits m = natDigits n := by
      have := congrArg List.reverse hr
      simpa using this
    calc m = ofDigits (natDigits m) := (ofDigits_natDigits m).symm
      _ = ofDigits (natDigits n) := by rw [hdig]
      _ = n := ofDigits_natDigits n

theorem dash_not_mem_natToText (n : Nat) : ¬ '-' ∈ (natToText n).data := by
  unfold natToText
  split
  · decide
  · intro hmem
    rcases List.mem_map.mp hmem with ⟨d, _, hd⟩
    exact digitChar_ne_dash d hd

theorem intToText_inj (i j : Int) (h : intToText i = intToText j) : i = j := by
  have hdata : (intToText i).data = (intToText j).data := congrArg String.data h
  by_cases hi : i < 0 <;> by_cases hj : j < 0
  · simp only [intToText, if_pos hi, if_pos hj] at hdata
    have htail : (natToText i.natAbs).data = (natToText j.natAbs).data :=
      (List.cons.injEq _ _ _ _ ▸ hdata).2
    have habs : i.natAbs = j.natAbs := natToText_inj _ _ (String.ext htail)
    omega
  · exfalso
    simp only [intToText, if_pos hi, if_neg hj] at hdata
    have : '-' ∈ (natToText j.natAbs).data := by
      rw [← hdata]
      exact List.mem_cons_self _ _
    exact dash_not_mem_natToText _ this
  · exfalso
    simp only [intToText, if_neg hi, if_pos hj] at hdata
    have : '-' ∈ (natToText i.natAbs).data := by
      rw [hdata]
      exact List.mem_cons_self _ _
    exact dash_not_mem_natToText _ this
  · simp only [intToText, if_neg hi, if_neg hj] at hdata
    have := natToText_inj _ _ (String.ext hdata)
    omega

/-! ### Small list helpers -/

theorem map_id_of_mem {α : Type} (l : List α) (f : α → α)
    (h : ∀ x ∈ l, f x = x) : l.map f = l := by
  induction l with
  | nil => rfl
  | cons a t ih =>
    simp only [List.map_cons, h a (List.mem_cons_self _ _),
      ih (fun x hx => h x (List.mem_cons_of_mem _ hx))]

/-- Values of a key-sorted session map, projected to DTOs, are pairwise
ascending in `id` (given the key-equals-id invariant). -/
theorem pairwise_ids_of_sorted (dm : Tbl String ChatSession)
    (hs : Tbl.SortedKeys strLtb dm) (hid : ∀ kv ∈ dm, kv.2.id = kv.1) :
    List.Pairwise (fun a b => strLtb a.id b.id = true)
      ((Tbl.values dm).map ChatSessionDTO.fromChatSession) := by
  unfold Tbl.values
  rw [List.map_map, List.pairwise_map]
  refine List.Pairwise.imp_of_mem ?_ hs
  intro a b ha hb hab
  have hia := hid a ha
  have hib := hid b hb
  show strLtb a.2.id b.2.id = true
  rw [hia, hib]
  exact hab

/-! ### The claims -/

/-- C1: the ReviewScheduler (`rateCard`), given a rating in
{again, hard, good, easy} and the card's current (interval, easeFactor),
returns exactly: again → (1, max(1.3, ease−0.2)); hard →
(max(1, ⌊interval·1.2⌋), max(1.3, ease−0.15)); good → (⌊interval·ease⌋,
ease); easy → (⌊interval·ease·1.3⌋, ease+0.15). In particular
(good, 2, 2.0) ↦ (4, 2.0) and (easy, 2, 2.0) ↦ (5, 2.15). -/
theorem C1_reviewScheduler (interval : Int) (ease : Rat) :
    rateCard .again interval ease = (1, max 1.3 (ease - 0.2)) ∧
    rateCard .hard interval ease =
      (max 1 ⌊(interval : Rat) * 1.2⌋, max 1.3 (ease - 0.15)) ∧
    rateCard .good interval ease = (⌊(interval : Rat) * ease⌋, ease) ∧
    rateCard .easy interval ease =
      (⌊(interval : Rat) * ease * 1.3⌋, ease + 0.15) ∧
    rateCard .good 2 2 = (4, 2) ∧
    rateCard .easy 2 2 = (5, 2.15) := by
  refine ⟨?_, ?_, rfl, ?_, ?_, ?_⟩ <;> norm_num [rateCard]

/-- C2: tenant isolation. For distinct tenants A ≠ B: (i) any single
operation invoked by A leaves B's entire slice of the store unchanged, and
(ii) along any trace from the initial state, the sequence of results A
receives is unchanged when every event of B is deleted from the trace — so
no operation of A observes or mutates anything B created. -/
theorem C2_tenant_isolation (A B : Principal) (op : Op) (now : Int)
    (s : State) (tr : List Event) (hAB : ¬ A = B) :
    tenantView (exec op A now s).1 B = tenantView s B ∧
    outputsOf A tr initState =
      outputsOf A (tr.filter fun e => decide (¬ e.caller = B)) initState := by
  refine ⟨exec_frame op A now s B (fun h => hAB h.symm), ?_⟩
  exact outputs_filter A B hAB tr initState initState (fun q _ => rfl)

theorem C2_tenant_isolation_witness :
    tenantView (exec Op.getNotes 0 5 initState).1 1 = tenantView initState 1 ∧
    outputsOf 0 wTrace initState =
      outputsOf 0 (wTrace.filter fun e => decide (¬ e.caller = 1)) initState :=
  C2_tenant_isolation 0 1 Op.getNotes 5 initState wTrace (by decide)

/-- C3: `recordStudyActivity` with clock value `now`: with no prior record
the stored streak becomes 1; otherwise, with `lastDay = lastStudyDate tdiv
nsPerDay` and `today = now tdiv nsPerDay` (truncating division), it becomes
previous+1 exactly when `lastDay = today − 1`, and 1 in every other case
(same day included); `lastStudyDate` is always set to `now`. -/
theorem C3_recordStudyActivity (s : State) (p : Principal) (now : Int) :
    Tbl.get (recordStudyActivity s p now).1.studyStreaks p =
      some (streakSpec (Tbl.get s.studyStreaks p) now) ∧
    (∀ prev, Tbl.get s.studyStreaks p = some prev →
      prev.lastStudyDate.tdiv nsPerDay = now.tdiv nsPerDay →
      Tbl.get (recordStudyActivity s p now).1.studyStreaks p =
        some { currentStreak := 1, lastStudyDate := now }) ∧
    (∀ prev, Tbl.get s.studyStreaks p = some prev →
      prev.lastStudyDate.tdiv nsPerDay = now.tdiv nsPerDay - 1 →
      Tbl.get (recordStudyActivity s p now).1.studyStreaks p =
        some { currentStreak := prev.currentStreak + 1, lastStudyDate := now }) := by
  refine ⟨?_, ?_, ?_⟩
  · rcases hget : Tbl.get s.studyStreaks p with _ | prev <;>
      simp [recordStudyActivity, streakSpec, hget, Tbl.get_add]
  · intro prev hget hday
    have hne : ¬ prev.lastStudyDate.tdiv nsPerDay = now.tdiv nsPerDay - 1 := by
      rw [hday]
      omega
    simp [recordStudyActivity, hget, Tbl.get_add, hne]
  · intro prev hget hday
    simp [recordStudyActivity, hget, Tbl.get_add, hday]

theorem C3_recordStudyActivity_witness :
    Tbl.get (recordStudyActivity wStreakState 0 1000).1.studyStreaks 0 =
      some { currentStreak := 1, lastStudyDate := 1000 } ∧
    Tbl.get (recordStudyActivity wStreakState 0 (nsPerDay + 5)).1.studyStreaks 0 =
      some { currentStreak := 4, lastStudyDate := nsPerDay + 5 } :=
  ⟨(C3_recordStudyActivity wStreakState 0 1000).2.1
      { currentStreak := 3, lastStudyDate := 0 } (by decide) (by decide),
   (C3_recordStudyActivity wStreakState 0 (nsPerDay + 5)).2.2
      { currentStreak := 3, lastStudyDate := 0 } (by decide) (by decide)⟩

/-- C9: reads on a fresh tenant never fail. For any trace containing no
event by tenant `p`, `getStudyStreak` returns the zero default
{currentStreak 0, lastStudyDate 0} and every list accessor returns the
empty array. -/
theorem C9_fresh_tenant_reads (tr : List Event) (p : Principal)
    (h : ∀ e ∈ tr, ¬ e.caller = p) :
    (getStudyStreak (run tr initState) p).2 =
      Res.streakRes { currentStreak := 0, lastStudyDate := 0 } ∧
    (getChatSessions (run tr initState) p).2 = Res.sessionsRes [] ∧
    (getNotes (run tr initState) p).2 = Res.notesRes [] ∧
    (getDecks (run tr initState) p).2 = Res.decksRes [] ∧
    (getQuizResults (run tr initState) p).2 = Res.quizzesRes [] ∧
    (getGoals (run tr initState) p).2 = Res.goalsRes [] ∧
    (getProgressStats (run tr initState) p).2 = Res.statsRes [] := by
  have hv := run_fresh p tr initState h
  have h2 : Tbl.get (run tr initState).chatSessions p = none :=
    congrArg TenantView.sessions hv
  have h3 : Tbl.get (run tr initState).notes p = none :=
    congrArg TenantView.notes hv
  have h4 : Tbl.get (run tr initState).flashcardDecks p = none :=
    congrArg TenantView.decks hv
  have h5 : Tbl.get (run tr initState).quizResults p = none :=
    congrArg TenantView.quizzes hv
  have h6 : Tbl.get (run tr initState).goals p = none :=
    congrArg TenantView.goals hv
  have h7 : Tbl.get (run tr initState).progressStats p = none :=
    congrArg TenantView.stats hv
  have h8 : Tbl.get (run tr initState).studyStreaks p = none :=
    congrArg TenantView.streak hv
  refine ⟨?_, ?_, ?_, ?_, ?_, ?_, ?_⟩ <;>
    simp [getStudyStreak, getChatSessions, getNotes, getDecks,
      getQuizResults, getGoals, getProgressStats, h2, h3, h4, h5, h6, h7, h8]

theorem goal_untouched_tail {s : State} {p : Principal} {gid : String}
    {gm gm' : Tbl String Goal} {g g' : Goal}
    (h1 : Tbl.get s.goals p = some gm) (h2 : Tbl.get gm gid = some g)
    (hC : g.isCompleted = true)
    (h1' : Tbl.get s.goals p = some gm') (h2' : Tbl.get gm' gid = some g') :
    g'.isCompleted = true := by
  rw [h1] at h1'
  injection h1' with e1
  subst e1
  rw [h2] at h2'
  injection h2' with e2
  subst e2
  exact hC

/-- A completed goal stays completed under any single operation, except a
`createGoal` by the same tenant whose clock value's decimal text collides
with the goal's id (that creation replaces the goal wholesale). -/
theorem goal_mono_exec (op : Op) (c : Principal) (now : Int) (s : State)
    (p : Principal) (gid : String)
    (gm : Tbl String Goal) (g : Goal) (gm' : Tbl String Goal) (g' : Goal)
    (h1 : Tbl.get s.goals p = some gm) (h2 : Tbl.get gm gid = some g)
    (hC : g.isCompleted = true)
    (h1' : Tbl.get (exec op c now s).1.goals p = some gm')
    (h2' : Tbl.get gm' gid = some g') :
    g'.isCompleted = true ∨
      (∃ t d td, op = Op.createGoal t d td) ∧ c = p ∧
        intToText now = gid := by
  cases op
  case createGoal t d td =>
    rcases hug : Tbl.get s.goals c with _ | ug
    · replace h1' : Tbl.get (Tbl.add natLtb s.goals c
          (Tbl.add strLtb Tbl.empty (intToText now)
            { id := intToText now
              title := t
              description := d
              targetDate := td
              isCompleted := false
              createdAt := now })) p = some gm' := by
        simpa [exec, createGoal, hug] using h1'
      rw [Tbl.get_add] at h1'
      by_cases hpc : p = c
      · rw [hpc, hug] at h1
        simp at h1
      · rw [if_neg hpc] at h1'
        exact Or.inl (goal_untouched_tail h1 h2 hC h1' h2')
    · replace h1' : Tbl.get (Tbl.add natLtb s.goals c
          (Tbl.add strLtb ug (intToText now)
            { id := intToText now
              title := t
              description := d
              targetDate := td
              isCompleted := false
              createdAt := now })) p = some gm' := by
        simpa [exec, createGoal, hug] using h1'
      rw [Tbl.get_add] at h1'
      by_cases hpc : p = c
      · rw [if_pos hpc] at h1'
        injection h1' with e1
        by_cases hgid : gid = intToText now
        · exact Or.inr ⟨⟨t, d, td, rfl⟩, hpc.symm, hgid.symm⟩
        · refine Or.inl ?_
          rw [← e1, Tbl.get_add, if_neg hgid] at h2'
          rw [hpc, hug] at h1
          injection h1 with e2
          rw [e2, h2] at h2'
          injection h2' with e3
          rw [← e3]
          exact hC
      · rw [if_neg hpc] at h1'
        exact Or.inl (goal_untouched_tail h1 h2 hC h1' h2')
  case completeGoal gid2 =>
    rcases hug : Tbl.get s.goals c with _ | ug
    · replace h1' : Tbl.get s.goals p = some gm' := by
        simpa [exec, completeGoal, hug] using h1'
      exact Or.inl (goal_untouched_tail h1 h2 hC h1' h2')
    · rcases hg2 : Tbl.get ug gid2 with _ | g2
      · replace h1' : Tbl.get s.goals p = some gm' := by
          simpa [exec, completeGoal, hug, hg2] using h1'
        exact Or.inl (goal_untouched_tail h1 h2 hC h1' h2')
      · replace h1' : Tbl.get (Tbl.add natLtb s.goals c
            (Tbl.add strLtb ug gid2
              { id := g2.id
                title := g2.title
                description := g2.description
                targetDate := g2.targetDate
                isCompleted := true
                createdAt := g2.createdAt })) p = some gm' := by
          simpa [exec, completeGoal, hug, hg2] using h1'
        rw [Tbl.get_add] at h1'
        by_cases hpc : p = c
        · rw [if_pos hpc] at h1'
          injection h1' with e1
          by_cases hgid : gid = gid2
          · refine Or.inl ?_
            rw [← e1, Tbl.get_add, if_pos hgid] at h2'
            injection h2' with e3
            rw [← e3]
          · refine Or.inl ?_
            rw [← e1, Tbl.get_add, if_neg hgid] at h2'
            rw [hpc, hug] at h1
            injection h1 with e2
            rw [e2, h2] at h2'
            injection h2' with e3
            rw [← e3]
            exact hC
        · rw [if_neg hpc] at h1'
          exact Or.inl (goal_untouched_tail h1 h2 hC h1' h2')
  all_goals (
    simp only [exec, createProfile, updateProfile, getProfile,
      createChatSession, addMessage, getChatSessions, getChatMessages,
      deleteChatSession, createNote, updateNote, deleteNote, getNotes,
      getNote, createDeck, addCard, updateCardReview, getDecks,
      getDeckCards, recordQuizResult, getQuizResults, recordStudyActivity,
      getStudyStreak, getGoals, updateProgressStat, getProgressStats,
      Tbl.containsKey] at h1'
    repeat' split at h1'
    all_goals exact Or.inl (goal_untouched_tail h1 h2 hC h1' h2'))

/-- C5: `updateCardReview(deckId, cardId, interval, easeFactor)` with the
deck present replaces exactly the cards whose id equals `cardId` — setting
interval and easeFactor to the supplied values and nextReview to
now + interval·24·60·60·10⁹ ns, preserving id/front/back/difficulty — and
maps every other card to itself; other decks are untouched; if no card
matches, the deck (and the whole store) is left unchanged; a missing deck
or missing deck collection traps with the NotFound messages. -/
theorem C5_updateCardReview (s : State) (p : Principal) (now : Int)
    (deckId cardId : String) (interval : Int) (ease : Rat) :
    (∀ userDecks deck, Tbl.get s.flashcardDecks p = some userDecks →
      Tbl.get userDecks deckId = some deck →
      (updateCardReview s p now deckId cardId interval ease =
        ({ s with flashcardDecks :=
            (Tbl.add natLtb s.flashcardDecks p
              (Tbl.add strLtb userDecks deckId
                { deck with cards :=
                    deck.cards.map (reviewCardUpdate now cardId interval ease) })) },
          Res.ok) ∧
        (∀ c ∈ deck.cards, c.id = cardId →
          reviewCardUpdate now cardId interval ease c =
            { id := c.id
              front := c.front
              back := c.back
              difficulty := c.difficulty
              nextReview := now + interval * 24 * 60 * 60 * 1000000000
              interval := interval
              easeFactor := ease }) ∧
        (∀ c ∈ deck.cards, ¬ c.id = cardId →
          reviewCardUpdate now cardId interval ease c = c) ∧
        (∀ k, ¬ k = deckId →
          Tbl.get (Tbl.add strLtb userDecks deckId
            { deck with cards :=
                deck.cards.map (reviewCardUpdate now cardId interval ease) }) k =
            Tbl.get userDecks k) ∧
        ((∀ c ∈ deck.cards, ¬ c.id = cardId) → Sorted2 s.flashcardDecks →
          updateCardReview s p now deckId cardId interval ease =
            (s, Res.ok)))) ∧
    (∀ userDecks, Tbl.get s.flashcardDecks p = some userDecks →
      Tbl.get userDecks deckId = none →
      updateCardReview s p now deckId cardId interval ease =
        (s, Res.trap msgDeckNotFound)) ∧
    (Tbl.get s.flashcardDecks p = none →
      updateCardReview s p now deckId cardId interval ease =
        (s, Res.trap msgNoDecks)) := by
  refine ⟨?_, ?_, ?_⟩
  · intro userDecks deck h1 h2
    refine ⟨?_, ?_, ?_, ?_, ?_⟩
    · simp [updateCardReview, h1, h2]
    · intro c hc hid
      unfold reviewCardUpdate
      simp [hid]
    · intro c hc hid
      unfold reviewCardUpdate
      simp [hid]
    · intro k hk
      rw [Tbl.get_add]
      simp [hk]
    · intro hnone hsorted
      have hmap : deck.cards.map (reviewCardUpdate now cardId interval ease) =
          deck.cards :=
        map_id_of_mem _ _ (fun c hc => by
          unfold reviewCardUpdate
          simp [hnone c hc])
      simp only [updateCardReview, h1, h2, hmap]
      rw [show FlashcardDeck.mk deck.id deck.name deck.subject deck.cards =
        deck from rfl]
      rw [Tbl.add_self strLtbLaws userDecks deckId deck
        (sorted2_get _ _ _ hsorted h1) h2]
      rw [Tbl.add_self natLtbLaws s.flashcardDecks p userDecks hsorted.1 h1]
  · intro userDecks h1 h2
    simp [updateCardReview, h1, h2]
  · intro h1
    simp [updateCardReview, h1]

theorem C5_updateCardReview_witness :
    updateCardReview wDeckState 0 9 "1" "2" 3 (mkRat 5 2) =
      ({ wDeckState with flashcardDecks :=
          (Tbl.add natLtb wDeckState.flashcardDecks 0
            (Tbl.add strLtb [("1", wDeck)] "1"
              { wDeck with cards :=
                  wDeck.cards.map (reviewCardUpdate 9 "2" 3 (mkRat 5 2)) })) },
        Res.ok) ∧
    updateCardReview wDeckState 0 9 "zz" "2" 3 (mkRat 5 2) =
      (wDeckState, Res.trap msgDeckNotFound) :=
  ⟨((C5_updateCardReview wDeckState 0 9 "1" "2" 3 (mkRat 5 2)).1
      [("1", wDeck)] wDeck (by decide) (by decide)).1,
   (C5_updateCardReview wDeckState 0 9 "zz" "2" 3 (mkRat 5 2)).2.1
      [("1", wDeck)] (by decide) (by decide)⟩

/-- C7: error-strictness asymmetry. `updateNote` and `deleteNote` on a
missing note id, or for a tenant with no notes collection, succeed and
leave the store completely unchanged; `addMessage` on a missing session or
missing session collection traps with the NotFound messages and leaves the
store unchanged. -/
theorem C7_lenient_notes_strict_chat (s : State) (p : Principal) (now : Int)
    (noteId title content topic sid role msgContent : String)
    (hwf : Sorted2 s.notes) :
    (Tbl.get s.notes p = none →
      updateNote s p now noteId title content topic = (s, Res.ok) ∧
      deleteNote s p noteId = (s, Res.ok)) ∧
    (∀ userNotes, Tbl.get s.notes p = some userNotes →
      Tbl.get userNotes noteId = none →
      updateNote s p now noteId title content topic = (s, Res.ok) ∧
      deleteNote s p noteId = (s, Res.ok)) ∧
    (Tbl.get s.chatSessions p = none →
      addMessage s p now sid role msgContent = (s, Res.trap msgNoSessions)) ∧
    (∀ userSessions, Tbl.get s.chatSessions p = some userSessions →
      Tbl.get userSessions sid = none →
      addMessage s p now sid role msgContent =
        (s, Res.trap msgSessionNotFound)) := by
  refine ⟨?_, ?_, ?_, ?_⟩
  · intro h1
    constructor <;> simp [updateNote, deleteNote, h1]
  · intro userNotes h1 h2
    constructor
    · simp [updateNote, h1, h2]
    · simp only [deleteNote, h1]
      rw [Tbl.remove_eq_self userNotes noteId h2]
      rw [Tbl.add_self natLtbLaws s.notes p userNotes hwf.1 h1]
  · intro h1
    simp [addMessage, h1]
  · intro userSessions h1 h2
    simp [addMessage, h1, h2]

theorem C7_lenient_notes_strict_chat_witness :
    (updateNote wNoteState 0 5 "1" "t" "c" "x" = (wNoteState, Res.ok) ∧
     deleteNote wNoteState 0 "1" = (wNoteState, Res.ok)) ∧
    addMessage wNoteState 0 5 "1" "user" "hi" =
      (wNoteState, Res.trap msgNoSessions) :=
  ⟨(C7_lenient_notes_strict_chat wNoteState 0 5 "1" "t" "c" "x" "1" "user"
      "hi" (by decide)).2.1 [("9", wNote)] (by decide) (by decide),
   (C7_lenient_notes_strict_chat wNoteState 0 5 "1" "t" "c" "x" "1" "user"
      "hi" (by decide)).2.2.1 (by decide)⟩

/-- C4 counterexample: the bounds easeFactor ≥ 1.3 and interval ≥ 0 do NOT
hold in every reachable state: after createDeck, addCard and an
updateCardReview call with caller-supplied interval −1 and easeFactor 1
(stored verbatim, unvalidated), the stored card has easeFactor 1 < 1.3 and
interval −1 < 0. -/
theorem C4_counterexample :
    ¬ flashInv (run c4Trace initState) ∧
    (getDeckCards (run c4Trace initState) 0 "1").2 =
      Res.cardsRes
        [{ id := "2", front := "Q", back := "A", difficulty := 1,
           nextReview := 3 + (-1) * 24 * 60 * 60 * 1000000000,
           interval := -1, easeFactor := 1 }] := by
  constructor <;> decide

/-- C4 amended: the bounds hold for cards created by `addCard`
(easeFactor 2.5, interval 0) and are preserved by `updateCardReview`
whenever the caller-supplied arguments satisfy them — as the
ReviewScheduler guarantees for in-range inputs — but `updateCardReview`
itself does not validate its arguments, so out-of-range caller inputs are
stored verbatim (see the counterexample). -/
theorem C4_flashcard_bounds (s : State) (p : Principal) (now : Int)
    (deckId cardId front back : String) (interval : Int) (ease : Rat)
    (hs : flashInv s) (hi : 0 ≤ interval) (he : mkRat 13 10 ≤ ease) :
    flashInv (addCard s p now deckId front back).1 ∧
    flashInv (updateCardReview s p now deckId cardId interval ease).1 ∧
    (∀ (r : DifficultyRating) (i : Int) (e : Rat), 0 ≤ i → mkRat 13 10 ≤ e →
      0 ≤ (rateCard r i e).1 ∧ mkRat 13 10 ≤ (rateCard r i e).2) := by
  refine ⟨?_, ?_, ?_⟩
  · rcases hud : Tbl.get s.flashcardDecks p with _ | userDecks
    · simpa [addCard, hud] using hs
    · rcases hdk : Tbl.get userDecks deckId with _ | deck
      · simpa [addCard, hud, hdk] using hs
      · simp only [addCard, hud, hdk]
        intro e he2 kd hkd c hc
        rcases Tbl.mem_add _ _ _ _ _ he2 with h1 | h1
        · rw [h1] at hkd
          rcases Tbl.mem_add _ _ _ _ _ hkd with h2 | h2
          · rw [h2] at hc
            rcases List.mem_append.mp hc with h3 | h3
            · exact hs (p, userDecks) (Tbl.mem_of_get _ _ _ hud)
                (deckId, deck) (Tbl.mem_of_get _ _ _ hdk) c h3
            · have hcc : c =
                  { id := intToText now
                    front := front
                    back := back
                    difficulty := 1
                    nextReview := now
                    interval := 0
                    easeFactor := mkRat 5 2 } := by
                simpa using h3
              rw [hcc]
              refine ⟨?_, le_refl 0⟩
              show mkRat 13 10 ≤ mkRat 5 2
              decide
          · exact hs (p, userDecks) (Tbl.mem_of_get _ _ _ hud) kd h2 c hc
        · exact hs e h1 kd hkd c hc
  · rcases hud : Tbl.get s.flashcardDecks p with _ | userDecks
    · simpa [updateCardReview, hud] using hs
    · rcases hdk : Tbl.get userDecks deckId with _ | deck
      · simpa [updateCardReview, hud, hdk] using hs
      · simp only [updateCardReview, hud, hdk]
        intro e he2 kd hkd c hc
        rcases Tbl.mem_add _ _ _ _ _ he2 with h1 | h1
        · rw [h1] at hkd
          rcases Tbl.mem_add _ _ _ _ _ hkd with h2 | h2
          · rw [h2] at hc
            rcases List.mem_map.mp hc with ⟨c0, hc0, hfc⟩
            have hold := hs (p, userDecks) (Tbl.mem_of_get _ _ _ hud)
              (deckId, deck) (Tbl.mem_of_get _ _ _ hdk) c0 hc0
            rw [← hfc]
            unfold reviewCardUpdate
            by_cases hid : c0.id = cardId
            · simp only [hid, if_pos rfl]
              exact ⟨he, hi⟩
            · simp only [if_neg hid]
              exact hold
          · exact hs (p, userDecks) (Tbl.mem_of_get _ _ _ hud) kd h2 c hc
        · exact hs e h1 kd hkd c hc
  · intro r i e hi0 he0
    have he' : (0 : Rat) ≤ e := le_trans (by decide) he0
    cases r
    · exact ⟨by norm_num [rateCard], le_max_left _ _⟩
    · exact ⟨le_trans (by norm_num : (0 : Int) ≤ 1) (le_max_left _ _),
        le_max_left _ _⟩
    · refine ⟨Int.le_floor.mpr ?_, he0⟩
      push_cast
      exact mul_nonneg (by exact_mod_cast hi0) he'
    · constructor
      · refine Int.le_floor.mpr ?_
        push_cast
        refine mul_nonneg (mul_nonneg (by exact_mod_cast hi0) he') ?_
        norm_num [Rat.mkRat_eq_div]
      · exact le_trans he0 (le_add_of_nonneg_right (by decide))

theorem C4_flashcard_bounds_witness :
    flashInv (addCard initState 0 1 "d" "f" "b").1 ∧
    flashInv (updateCardReview initState 0 1 "d" "c" 2 (mkRat 5 2)).1 ∧
    (∀ (r : DifficultyRating) (i : Int) (e : Rat), 0 ≤ i → mkRat 13 10 ≤ e →
      0 ≤ (rateCard r i e).1 ∧ mkRat 13 10 ≤ (rateCard r i e).2) :=
  C4_flashcard_bounds initState 0 1 "d" "c" "f" "b" 2 (mkRat 5 2)
    (by decide) (by decide) (by decide)

/-- C6 counterexample: `getChatSessions` does NOT return the sessions
ordered by descending createdAt. The source defines
`compareByCreatedAtDesc` but never applies it; after creating sessions at
times 1 then 2 the returned list has createdAt 1 before createdAt 2 —
ascending, not descending. -/
theorem C6_counterexample :
    (getChatSessions (run c6Trace initState) 0).2 =
      Res.sessionsRes
        [{ id := "1", title := "a", createdAt := 1, messages := [] },
         { id := "2", title := "b", createdAt := 2, messages := [] }] ∧
    ¬ List.Pairwise (fun a b : ChatSessionDTO => b.createdAt ≤ a.createdAt)
        [{ id := "1", title := "a", createdAt := 1, messages := [] },
         { id := "2", title := "b", createdAt := 2, messages := [] }] := by
  constructor <;> decide

/-- C6 amended: `getChatSessions` returns all of the caller's sessions,
each projected to (id, title, createdAt, full message array), in the
underlying ordered map's ascending key order — equivalently ascending
session-id Text order, since every reachable state stores each session
under its own id — not descending createdAt; a tenant with no session
collection gets the empty array. -/
theorem C6_getChatSessions (tr : List Event) (p : Principal) :
    (Tbl.get (run tr initState).chatSessions p = none →
      (getChatSessions (run tr initState) p).2 = Res.sessionsRes []) ∧
    (∀ userSessions,
      Tbl.get (run tr initState).chatSessions p = some userSessions →
      (getChatSessions (run tr initState) p).2 =
        Res.sessionsRes
          ((Tbl.values userSessions).map ChatSessionDTO.fromChatSession) ∧
      List.Pairwise (fun a b => strLtb a.id b.id = true)
        ((Tbl.values userSessions).map ChatSessionDTO.fromChatSession)) := by
  constructor
  · intro h
    simp [getChatSessions, h]
  · intro us hus
    constructor
    · simp [getChatSessions, hus]
    · refine pairwise_ids_of_sorted us ?_ ?_
      · exact sorted2_get _ _ _ (WF_run tr).2.1 hus
      · intro kv hkv
        exact chatKeyId_run tr (p, us) (Tbl.mem_of_get _ _ _ hus) kv hkv

theorem C6_getChatSessions_witness :
    (getChatSessions (run c6Trace initState) 0).2 =
      Res.sessionsRes
        ((Tbl.values [("1", wSessA), ("2", wSessB)]).map
          ChatSessionDTO.fromChatSession) ∧
    List.Pairwise (fun a b => strLtb a.id b.id = true)
      ((Tbl.values [("1", wSessA), ("2", wSessB)]).map
        ChatSessionDTO.fromChatSession) :=
  (C6_getChatSessions c6Trace 0).2 [("1", wSessA), ("2", wSessB)] (by decide)

/-- C8 counterexample: `Goal.isCompleted` is NOT monotonic under every
operation. With a non-decreasing clock stuck at 5: createGoal (id "5"),
completeGoal "5" leaves the goal completed, but a second createGoal at the
same clock value reuses id "5" and replaces the goal with a fresh
isCompleted = false one. -/
theorem C8_counterexample :
    (getGoals (run c8Trace2 initState) 0).2 =
      Res.goalsRes
        [{ id := "5", title := "g", description := "d", targetDate := 99,
           isCompleted := true, createdAt := 5 }] ∧
    (getGoals (run c8Trace3 initState) 0).2 =
      Res.goalsRes
        [{ id := "5", title := "g2", description := "d2", targetDate := 99,
           isCompleted := false, createdAt := 5 }] := by
  constructor <;> decide

/-- C8 amended: `completeGoal` sets isCompleted = true preserving id,
title, description, targetDate and createdAt; re-invoking it on an
already-completed goal is a success that leaves the store completely
unchanged; it traps NotFound when the goal or the tenant's goal collection
is absent. isCompleted, once true, is preserved by every operation EXCEPT
a `createGoal` by the same tenant at a clock value whose decimal text
equals the goal's id, which overwrites the goal with a fresh incomplete
one (see the counterexample); under collision-free ids it never reverts. -/
theorem C8_completeGoal (s : State) (p : Principal) (goalId : String)
    (ev : Event) :
    (∀ userGoals g, Tbl.get s.goals p = some userGoals →
      Tbl.get userGoals goalId = some g →
      completeGoal s p goalId =
        ({ s with goals :=
            (Tbl.add natLtb s.goals p
              (Tbl.add strLtb userGoals goalId
                { id := g.id
                  title := g.title
                  description := g.description
                  targetDate := g.targetDate
                  isCompleted := true
                  createdAt := g.createdAt })) },
          Res.ok) ∧
      (g.isCompleted = true → Sorted2 s.goals →
        completeGoal s p goalId = (s, Res.ok))) ∧
    (∀ userGoals, Tbl.get s.goals p = some userGoals →
      Tbl.get userGoals goalId = none →
      completeGoal s p goalId = (s, Res.trap msgGoalNotFound)) ∧
    (Tbl.get s.goals p = none →
      completeGoal s p goalId = (s, Res.trap msgNoGoals)) ∧
    (∀ gm g gm' g', Tbl.get s.goals p = some gm →
      Tbl.get gm goalId = some g → g.isCompleted = true →
      Tbl.get (exec ev.op ev.caller ev.now s).1.goals p = some gm' →
      Tbl.get gm' goalId = some g' →
      g'.isCompleted = true ∨
        (∃ t d td, ev.op = Op.createGoal t d td) ∧ ev.caller = p ∧
          intToText ev.now = goalId) := by
  refine ⟨?_, ?_, ?_, ?_⟩
  · intro userGoals g h1 h2
    refine ⟨by simp [completeGoal, h1, h2], ?_⟩
    intro hC hsorted
    have hupd : ({ id := g.id
                   title := g.title
                   description := g.description
                   targetDate := g.targetDate
                   isCompleted := true
                   createdAt := g.createdAt } : Goal) = g := by
      cases g
      simp_all
    simp only [completeGoal, h1, h2]
    rw [hupd]
    rw [Tbl.add_self strLtbLaws userGoals goalId g
      (sorted2_get _ _ _ hsorted h1) h2]
    rw [Tbl.add_self natLtbLaws s.goals p userGoals hsorted.1 h1]
  · intro userGoals h1 h2
    simp [completeGoal, h1, h2]
  · intro h1
    simp [completeGoal, h1]
  · intro gm g gm' g' h1 h2 hC h1' h2'
    exact goal_mono_exec ev.op ev.caller ev.now s p goalId gm g gm' g'
      h1 h2 hC h1' h2'

theorem C8_completeGoal_witness :
    completeGoal wGoalState 0 "5" = (wGoalState, Res.ok) ∧
    (wGoalDone.isCompleted = true ∨
      (∃ t d td, Op.getNotes = Op.createGoal t d td) ∧ (1 : Principal) = 0 ∧
        intToText 7 = "5") :=
  ⟨((C8_completeGoal wGoalState 0 "5" { caller := 1, now := 7, op := Op.getNotes }).1
      [("5", wGoalDone)] wGoalDone (by decide) (by decide)).2 (by decide)
      (by decide),
   (C8_completeGoal wGoalState 0 "5" { caller := 1, now := 7, op := Op.getNotes }).2.2.2
      [("5", wGoalDone)] wGoalDone [("5", wGoalDone)] wGoalDone (by decide)
      (by decide) (by decide) (by decide) (by decide)⟩

/-- C10 counterexample: entity IDs are NOT unique when two creations occur
at the same clock value: two `createNote` calls at clock 7 both return id
"7", and the second silently overwrites the first (one stored note
remains, carrying the second call's fields). -/
theorem C10_counterexample :
    (createNote initState 0 7 "a" "b" "c").2 = Res.createdId "7" ∧
    (createNote (createNote initState 0 7 "a" "b" "c").1 0 7 "d" "e" "f").2 =
      Res.createdId "7" ∧
    (createNote (createNote initState 0 7 "a" "b" "c").1 0 7 "d" "e" "f").1.notes =
      [(0, [("7", { id := "7", title := "d", content := "e", topic := "f",
                    createdAt := 7, updatedAt := 7 })])] := by
  refine ⟨by decide, by decide, by decide⟩

/-- C10 amended: every creation's ID is the decimal text of the clock
value at creation, so two creations get distinct IDs exactly when their
clock values differ (decimal text is injective); at identical clock values
the ID repeats and the later creation overwrites the earlier entity (see
the counterexample). -/
theorem C10_ids (t1 t2 : Int) (s : State) (p : Principal)
    (x y z : String) (sc tq td : Int) (ht : ¬ t1 = t2) :
    ¬ intToText t1 = intToText t2 ∧
    (createNote s p t1 x y z).2 = Res.createdId (intToText t1) ∧
    (createChatSession s p t1 x).2 = Res.createdId (intToText t1) ∧
    (createDeck s p t1 x y).2 = Res.createdId (intToText t1) ∧
    (createGoal s p t1 x y td).2 = Res.createdId (intToText t1) ∧
    (recordQuizResult s p t1 x sc tq).2 = Res.createdId (intToText t1) ∧
    (∀ userDecks deck, Tbl.get s.flashcardDecks p = some userDecks →
      Tbl.get userDecks x = some deck →
      (addCard s p t1 x y z).2 = Res.createdId (intToText t1)) := by
  refine ⟨fun h => ht (intToText_inj _ _ h), rfl, rfl, rfl, rfl, rfl, ?_⟩
  intro userDecks deck h1 h2
  simp [addCard, h1, h2]

theorem C10_ids_witness :
    ¬ intToText 1 = intToText 2 ∧
    (createNote initState 0 1 "a" "b" "c").2 = Res.createdId (intToText 1) ∧
    (createChatSession initState 0 1 "a").2 = Res.createdId (intToText 1) ∧
    (createDeck initState 0 1 "a" "b").2 = Res.createdId (intToText 1) ∧
    (createGoal initState 0 1 "a" "b" 9).2 = Res.createdId (intToText 1) ∧
    (recordQuizResult initState 0 1 "a" 3 5).2 =
      Res.createdId (intToText 1) ∧
    (∀ userDecks deck, Tbl.get initState.flashcardDecks 0 = some userDecks →
      Tbl.get userDecks "a" = some deck →
      (addCard initState 0 1 "a" "b" "c").2 = Res.createdId (intToText 1)) :=
  C10_ids 1 2 initState 0 "a" "b" "c" 3 5 9 (by decide)

theorem C9_fresh_tenant_reads_witness :
    (getStudyStreak (run wTrace9 initState) 0).2 =
      Res.streakRes { currentStreak := 0, lastStudyDate := 0 } ∧
    (getChatSessions (run wTrace9 initState) 0).2 = Res.sessionsRes [] ∧
    (getNotes (run wTrace9 initState) 0).2 = Res.notesRes [] ∧
    (getDecks (run wTrace9 initState) 0).2 = Res.decksRes [] ∧
    (getQuizResults (run wTrace9 initState) 0).2 = Res.quizzesRes [] ∧
    (getGoals (run wTrace9 initState) 0).2 = Res.goalsRes [] ∧
    (getProgressStats (run wTrace9 initState) 0).2 = Res.statsRes [] :=
  C9_fresh_tenant_reads wTrace9 0 (by decide)

end Jarvis
